import Mathlib

/-!
Verification development for the RmlUi SVG cache and gradient decorator
subsystem.  The definitions below are shallow embeddings of the C++ sources:

* `Rml.SVGCache`  — `Source/SVG/SVGCache.cpp` (the newer, four-argument
  variant found in the sources, keyed by source, dimensions, content-fit
  flag and colour).
* `Rml.SVGCacheV3` — `Source/SVG/SVGCache.cpp` (the three-argument variant,
  keyed by source, dimensions and colour; this is the variant called by
  `ElementSVG`).
* `Rml.ElementSVG` — `Source/SVG/ElementSVG.cpp`.
* `Rml.Gradient`   — `Source/Core/DecoratorGradient.cpp`.

Machine floats in the sources are modelled by exact rationals (for the
cache and the colour-stop resolver, whose claims are order/structure
properties) or by real numbers (for the trigonometric gradient-shape
calculators).  External collaborators (file interface, lunasvg parser,
system path joining, style computation) are modelled as explicit
environment records of functions, mirroring exactly how the sources
consume them.
-/

namespace Rml

/-- A two-dimensional integer vector (`Rml::Vector2i`). -/
abbrev Vec2i := Int × Int

/-- A two-dimensional fractional vector (`Rml::Vector2f`), modelled with
exact rationals. -/
abbrev Vec2q := Rat × Rat

/-- `Rml::Colourb`: four byte channels.  Only equality of colours matters to
the cache logic, so the channels are modelled as naturals. -/
structure Colourb where
  red : Nat
  green : Nat
  blue : Nat
  alpha : Nat
deriving DecidableEq, Repr

instance : Inhabited Colourb := ⟨⟨0, 0, 0, 0⟩⟩

/-- Association-list lookup, modelling `UnorderedMap::find`. -/
def alookup {α β : Type} [DecidableEq α] : List (α × β) → α → Option β
  | [], _ => none
  | (k, v) :: rest, key => if key = k then some v else alookup rest key

/-- Update the value stored under a key in place (the entry is known to
exist when this is used, mirroring mutation through a map iterator). -/
def aupdate {α β : Type} [DecidableEq α] (f : β → β) : List (α × β) → α → List (α × β)
  | [], _ => []
  | (k, v) :: rest, key => if key = k then (k, f v) :: rest else (k, v) :: aupdate f rest key

/-- Overwrite the value stored under a key (mutation through a found map
iterator / `insert_or_assign` on a present key). -/
def aset {α β : Type} [DecidableEq α] (m : List (α × β)) (key : α) (v : β) : List (α × β) :=
  aupdate (fun _ => v) m key

/-- Erase a key, modelling `UnorderedMap::erase` of a found iterator. -/
def aerase {α β : Type} [DecidableEq α] : List (α × β) → α → List (α × β)
  | [], _ => []
  | (k, v) :: rest, key => if key = k then rest else (k, v) :: aerase rest key

/-- Vector indexing (`operator[]` / iterator dereference); out-of-range
access (impossible on the executed paths) yields the default element. -/
def nthD {α : Type} [Inhabited α] : List α → Nat → α
  | [], _ => default
  | a :: _, 0 => a
  | _ :: rest, n + 1 => nthD rest n

/-- Write through a vector iterator at index `i`. -/
def setN {α : Type} : List α → Nat → α → List α
  | [], _, _ => []
  | _ :: rest, 0, v => v :: rest
  | a :: rest, n + 1, v => a :: setN rest n v

/-- `std::find_if` returning the index of the first match. -/
def findIdxA {α : Type} (p : α → Bool) : List α → Option Nat
  | [] => none
  | a :: rest => if p a then some 0 else (findIdxA p rest).map (· + 1)

/-- The last element of a vector (`*std::prev(v.end())`). -/
def lastD {α : Type} [Inhabited α] : List α → α
  | [] => default
  | [a] => a
  | _ :: b :: rest => lastD (b :: rest)

/-- Drop the last element (`pop_back`). -/
def dropLastA {α : Type} : List α → List α
  | [] => []
  | [_] => []
  | a :: b :: rest => a :: dropLastA (b :: rest)

/-- `std::iter_swap(found, std::prev(end)); container.pop_back();` —
replace the element at index `i` by the last element and drop the last. -/
def swapPop {α : Type} [Inhabited α] (l : List α) (i : Nat) : List α :=
  dropLastA (setN l i (lastD l))

/-- The result of parsing vector-image data (`lunasvg::Document`): the
declared width/height and the content bounding box (`Document::box()`). -/
structure SVGDocData where
  width : Rat
  height : Rat
  boxX : Rat
  boxY : Rat
  boxW : Rat
  boxH : Rat
deriving DecidableEq, Repr

instance : Inhabited SVGDocData := ⟨⟨0, 0, 0, 0, 0, 0⟩⟩

/-- Environment consumed by the cache: the file interface
(`GetFileInterface()->LoadFile`) and the external rasterizer parser
(`lunasvg::Document::loadFromData`), both fallible. -/
structure CacheEnv where
  loadFile : String → Option String
  loadFromData : String → Option SVGDocData

namespace SVGCache

/-- `SVGDoc::Size::Colour`: one tinted quad mesh sharing the size's
texture.  The owned `Geometry` object is modelled by a unique numeric
identifier standing for its address. -/
structure ColourEntry where
  ref_count : Nat
  colour : Colourb
  geometry : Nat
deriving DecidableEq, Repr

instance : Inhabited ColourEntry := ⟨⟨0, default, 0⟩⟩

/-- `SVGDoc::Size`: one rasterization of the document.  The owned
`Texture` (a deferred rasterization callback) is a backend resource with
no bearing on the cache bookkeeping and is not modelled. -/
structure SizeEntry where
  render_dimensions : Vec2i
  content_fit : Bool
  colours : List ColourEntry
deriving DecidableEq, Repr

instance : Inhabited SizeEntry := ⟨⟨(0, 0), false, []⟩⟩

/-- `SVGDoc`: one parsed source document with its intrinsic dimensions and
its render sizes. -/
structure SVGDoc where
  intrinsic_dimensions : Vec2q
  svg_document : SVGDocData
  render_sizes : List SizeEntry
deriving DecidableEq, Repr

instance : Inhabited SVGDoc := ⟨⟨(0, 0), default, []⟩⟩

/-- `Handle`: a reference-counted lease on one colour-geometry entry. -/
structure Handle where
  ref_count : Nat
  geometry : Nat
  dimensions : Vec2i
  intrinsic_dimensions : Vec2q
  source : String
deriving DecidableEq, Repr

instance : Inhabited Handle := ⟨⟨0, 0, (0, 0), (0, 0), ""⟩⟩

/-- The two global tables (`static DocumentMap documents; static HandleMap
handles;`), plus a counter allocating fresh geometry identifiers (standing
for the addresses of newly constructed `Geometry` objects). -/
structure CacheState where
  documents : List (String × SVGDoc)
  handles : List (Nat × Handle)
  next_geom : Nat
deriving DecidableEq, Repr

/-- The state after `SVGCache::Deninitialize`, and the initial state. -/
def emptyCache : CacheState := ⟨[], [], 0⟩

/-- `FindSize`: locate the render-size entry whose `render_dimensions`
equal the requested dimensions.  Note that `content_fit` is *not* part of
the comparison. -/
def findSizeIdx (sizes : List SizeEntry) (dimensions : Vec2i) : Option Nat :=
  findIdxA (fun el => el.render_dimensions = dimensions) sizes

/-- The key type of the handle table.  The source computes it with
`Utilities::HashCombine` over the source string, both dimension
components, the content-fit flag and the first sixteen bits of the colour;
the hash function is kept abstract here and passed as a parameter. -/
abbrev HashFn := String → Vec2i → Bool → Colourb → Nat

/-- `SVGCache::GetHandle(source, dimensions, content_fit, colour)`.
Returns the handle value (0 on failure) and the updated global state. -/
def GetHandle (env : CacheEnv) (hash : HashFn) (st : CacheState)
    (source : String) (dimensions : Vec2i) (content_fit : Bool) (colour : Colourb) :
    Nat × CacheState :=
  let handle := hash source dimensions content_fit colour
  match alookup st.handles handle with
  | some _ =>
    (handle,
      { st with handles := aupdate (fun h => { h with ref_count := h.ref_count + 1 }) st.handles handle })
  | none =>
    -- find or create a document
    let docres : Option (SVGDoc × List (String × SVGDoc)) :=
      match alookup st.documents source with
      | some doc => some (doc, st.documents)
      | none =>
        if source = "" then none
        else
          match env.loadFile source with
          | none => none  -- warning logged: could not load SVG file
          | some svg_data =>
            match env.loadFromData svg_data with
            | none => none  -- warning logged: could not load SVG data
            | some d =>
              let doc : SVGDoc :=
                { intrinsic_dimensions := (max d.width 1, max d.height 1)
                  svg_document := d
                  render_sizes := [] }
              some (doc, (source, doc) :: st.documents)
    match docres with
    | none => (0, st)
    | some (doc0, documents0) =>
      -- find or create texture
      let szres : Nat × SVGDoc :=
        match findSizeIdx doc0.render_sizes dimensions with
        | some i => (i, doc0)
        | none =>
          (doc0.render_sizes.length,
            { doc0 with render_sizes :=
                doc0.render_sizes ++ [{ render_dimensions := dimensions, content_fit := content_fit, colours := [] }] })
      let ti := szres.1
      let doc1 := szres.2
      let sz := nthD doc1.render_sizes ti
      -- find or create geometry
      let colres : SizeEntry × Nat × Nat :=
        match findIdxA (fun col_el => col_el.colour = colour) sz.colours with
        | some ci =>
          let c := nthD sz.colours ci
          ({ sz with colours := setN sz.colours ci { c with ref_count := c.ref_count + 1 } },
            c.geometry, st.next_geom)
        | none =>
          ({ sz with colours := sz.colours ++ [{ ref_count := 1, colour := colour, geometry := st.next_geom }] },
            st.next_geom, st.next_geom + 1)
      let doc2 := { doc1 with render_sizes := setN doc1.render_sizes ti colres.1 }
      -- create the handle
      let svg_handle : Handle :=
        { ref_count := 1
          geometry := colres.2.1
          dimensions := dimensions
          intrinsic_dimensions :=
            if content_fit then (doc2.svg_document.boxW, doc2.svg_document.boxH)
            else doc2.intrinsic_dimensions
          source := source }
      (handle,
        { documents := aset documents0 source doc2
          handles := (handle, svg_handle) :: st.handles
          next_geom := colres.2.2 })

/-- `SVGCache::ReleaseHandle`.  The source asserts that the handle, its
document, size and colour entries exist; the assertion-failure paths are
modelled as leaving the corresponding table untouched. -/
def ReleaseHandle (st : CacheState) (handle : Nat) : CacheState :=
  match alookup st.handles handle with
  | none => st  -- RMLUI_ASSERT(found_it != handles.cend())
  | some svg_handle =>
    if svg_handle.ref_count - 1 = 0 then
      let documents1 :=
        match alookup st.documents svg_handle.source with
        | none => st.documents  -- RMLUI_ASSERT(found_doc != documents.cend())
        | some doc =>
          match findSizeIdx doc.render_sizes svg_handle.dimensions with
          | none => st.documents  -- RMLUI_ASSERT(found_texture != ...)
          | some ti =>
            let sz := nthD doc.render_sizes ti
            match findIdxA (fun col_el => col_el.geometry = svg_handle.geometry) sz.colours with
            | none => st.documents  -- RMLUI_ASSERT(found_geo != ...)
            | some gi =>
              let ge := nthD sz.colours gi
              if ge.ref_count - 1 = 0 then
                if sz.colours.length > 1 then
                  let sz1 := { sz with colours := swapPop sz.colours gi }
                  aset st.documents svg_handle.source
                    { doc with render_sizes := setN doc.render_sizes ti sz1 }
                else if doc.render_sizes.length > 1 then
                  aset st.documents svg_handle.source
                    { doc with render_sizes := swapPop doc.render_sizes ti }
                else
                  aerase st.documents svg_handle.source
              else
                let sz1 := { sz with colours := setN sz.colours gi { ge with ref_count := ge.ref_count - 1 } }
                aset st.documents svg_handle.source
                  { doc with render_sizes := setN doc.render_sizes ti sz1 }
      { st with documents := documents1, handles := aerase st.handles handle }
    else
      { st with handles := aupdate (fun h => { h with ref_count := h.ref_count - 1 }) st.handles handle }

/-- `SVGCache::GetGeometry(handle, intrinsic_dimensions)`: the output
parameter is modelled by threading its incoming value; invalid handles
return a null geometry (here `none`) and leave it untouched. -/
def GetGeometry (st : CacheState) (handle : Nat) (intrinsic_dimensions : Vec2q) :
    Option Nat × Vec2q :=
  match alookup st.handles handle with
  | none => (none, intrinsic_dimensions)
  | some h => (some h.geometry, h.intrinsic_dimensions)

/-- The document entry created by a fresh, successful `GetHandle` call. -/
def freshDoc (d : SVGDocData) (dimensions : Vec2i) (content_fit : Bool)
    (colour : Colourb) (g : Nat) : SVGDoc :=
  { intrinsic_dimensions := (max d.width 1, max d.height 1)
    svg_document := d
    render_sizes := [{ render_dimensions := dimensions, content_fit := content_fit,
                       colours := [{ ref_count := 1, colour := colour, geometry := g }] }] }

/-- The handle entry created by a fresh, successful `GetHandle` call. -/
def freshHandle (d : SVGDocData) (dimensions : Vec2i) (content_fit : Bool)
    (source : String) (g : Nat) : Handle :=
  { ref_count := 1
    geometry := g
    dimensions := dimensions
    intrinsic_dimensions :=
      if content_fit then (d.boxW, d.boxH) else (max d.width 1, max d.height 1)
    source := source }

/-- Symbolic execution of `GetHandle` when neither the handle nor the
document is cached and loading and parsing both succeed. -/
theorem GetHandle_fresh (env : CacheEnv) (hash : HashFn) (st : CacheState)
    (source : String) (dimensions : Vec2i) (content_fit : Bool) (colour : Colourb)
    (data : String) (d : SVGDocData)
    (hh : alookup st.handles (hash source dimensions content_fit colour) = none)
    (hd : alookup st.documents source = none)
    (hsrc : ¬source = "")
    (hload : env.loadFile source = some data)
    (hparse : env.loadFromData data = some d) :
    GetHandle env hash st source dimensions content_fit colour =
      (hash source dimensions content_fit colour,
        { documents := (source, freshDoc d dimensions content_fit colour st.next_geom) :: st.documents
          handles := (hash source dimensions content_fit colour,
            freshHandle d dimensions content_fit source st.next_geom) :: st.handles
          next_geom := st.next_geom + 1 }) := by
  simp only [GetHandle, hh, hd, hload, hparse, if_neg hsrc, findSizeIdx, findIdxA,
    nthD, setN, List.nil_append, aset, aupdate, if_pos, freshDoc, freshHandle]

/-- Symbolic execution of `GetHandle` when the handle is already cached:
only its reference count is incremented. -/
theorem GetHandle_found (env : CacheEnv) (hash : HashFn) (st : CacheState)
    (source : String) (dimensions : Vec2i) (content_fit : Bool) (colour : Colourb)
    (hdl : Handle)
    (hh : alookup st.handles (hash source dimensions content_fit colour) = some hdl) :
    GetHandle env hash st source dimensions content_fit colour =
      (hash source dimensions content_fit colour,
        { st with handles := aupdate (fun h => { h with ref_count := h.ref_count + 1 }) st.handles (hash source dimensions content_fit colour) }) := by
  simp only [GetHandle, hh]

/-- C1: two successive `GetHandle` calls with identical parameters return
the same handle value; after the second call the cache holds exactly one
document entry, one render-size entry and one colour-geometry entry, and
the handle entry they share has reference count 2; one `ReleaseHandle`
returns the count to 1 with all entries still present, and a second
`ReleaseHandle` removes the handle entry and all three cache entries. -/
theorem dedup_refcount_lifecycle (env : CacheEnv) (hash : HashFn)
    (source : String) (dimensions : Vec2i) (content_fit : Bool) (colour : Colourb)
    (data : String) (d : SVGDocData)
    (hv hv2 : Nat) (st1 st2 st3 st4 : CacheState)
    (hsrc : ¬source = "")
    (hload : env.loadFile source = some data)
    (hparse : env.loadFromData data = some d)
    (e1 : GetHandle env hash emptyCache source dimensions content_fit colour = (hv, st1))
    (e2 : GetHandle env hash st1 source dimensions content_fit colour = (hv2, st2))
    (e3 : ReleaseHandle st2 hv2 = st3)
    (e4 : ReleaseHandle st3 hv2 = st4) :
    hv2 = hv ∧
    (∃ doc sz ce hdl,
      st2 = { documents := [(source, doc)], handles := [(hv, hdl)], next_geom := 1 } ∧
      doc.render_sizes = [sz] ∧ sz.colours = [ce] ∧ hdl.ref_count = 2) ∧
    (∃ doc sz ce hdl,
      st3 = { documents := [(source, doc)], handles := [(hv, hdl)], next_geom := 1 } ∧
      doc.render_sizes = [sz] ∧ sz.colours = [ce] ∧ hdl.ref_count = 1) ∧
    st4.documents = [] ∧ st4.handles = [] := by
  rw [GetHandle_fresh env hash emptyCache source dimensions content_fit colour data d
    rfl rfl hsrc hload hparse] at e1
  injection e1 with e1a e1b
  subst e1a
  subst e1b
  rw [GetHandle_found env hash _ source dimensions content_fit colour
    (freshHandle d dimensions content_fit source emptyCache.next_geom)
    (by simp [alookup])] at e2
  injection e2 with e2a e2b
  subst e2a
  subst e2b
  simp only [emptyCache] at e3 e4 ⊢
  simp only [aupdate, if_pos rfl, ite_true, eq_self_iff_true] at e3 e4 ⊢
  rw [show ReleaseHandle
      { documents := [(source, freshDoc d dimensions content_fit colour 0)],
        handles := [(hash source dimensions content_fit colour,
          { ref_count := (freshHandle d dimensions content_fit source 0).ref_count + 1,
            geometry := (freshHandle d dimensions content_fit source 0).geometry,
            dimensions := (freshHandle d dimensions content_fit source 0).dimensions,
            intrinsic_dimensions := (freshHandle d dimensions content_fit source 0).intrinsic_dimensions,
            source := (freshHandle d dimensions content_fit source 0).source })],
        next_geom := 0 + 1 }
      (hash source dimensions content_fit colour) =
      { documents := [(source, freshDoc d dimensions content_fit colour 0)],
        handles := [(hash source dimensions content_fit colour,
          freshHandle d dimensions content_fit source 0)],
        next_geom := 0 + 1 }
    from by simp [ReleaseHandle, alookup, aupdate, freshHandle]] at e3
  subst e3
  refine ⟨trivial, ⟨_, _, _, _, rfl, rfl, rfl, by simp [freshHandle]⟩,
    ⟨_, _, _, _, rfl, rfl, rfl, by simp [freshHandle]⟩, ?_, ?_⟩ <;>
  · subst e4
    simp [ReleaseHandle, alookup, aupdate, aerase, freshHandle, freshDoc,
      findSizeIdx, findIdxA, nthD]

/-- Closed witness for `dedup_refcount_lifecycle` at a concrete
environment, hash function and parameter set. -/
theorem dedup_refcount_lifecycle_witness :
    (ReleaseHandle
      (ReleaseHandle
        (GetHandle ⟨fun _ => some "svg", fun _ => some ⟨30, 40, 1, 2, 3, 4⟩⟩ (fun _ _ _ _ => 7)
          (GetHandle ⟨fun _ => some "svg", fun _ => some ⟨30, 40, 1, 2, 3, 4⟩⟩ (fun _ _ _ _ => 7)
            emptyCache "a.svg" (10, 20) false ⟨1, 2, 3, 4⟩).2
          "a.svg" (10, 20) false ⟨1, 2, 3, 4⟩).2
        7) 7).documents = [] := by
  have h := dedup_refcount_lifecycle
    ⟨fun _ => some "svg", fun _ => some ⟨30, 40, 1, 2, 3, 4⟩⟩
    (fun _ _ _ _ => 7) "a.svg" (10, 20) false ⟨1, 2, 3, 4⟩ "svg" ⟨30, 40, 1, 2, 3, 4⟩
    7 7 _ _ _ _ (by decide) rfl rfl rfl rfl rfl rfl
  exact h.2.2.2.1

/-- C2 (counterexample): calling `GetHandle` twice with the same source and
pixel dimensions but different fit modes (stretch, then content-fit) under
a hash separating the two parameter sets leaves exactly ONE render-size
entry — the second call reuses the entry created with the other fit mode
(its colour geometry reference count rises to 2) instead of creating its
own. -/
theorem size_entry_per_fit_counterexample :
    (GetHandle ⟨fun _ => some "svg", fun _ => some ⟨30, 40, 1, 2, 3, 4⟩⟩
        (fun _ _ f _ => if f then 1 else 2)
        (GetHandle ⟨fun _ => some "svg", fun _ => some ⟨30, 40, 1, 2, 3, 4⟩⟩
          (fun _ _ f _ => if f then 1 else 2)
          emptyCache "a.svg" (10, 10) false ⟨0, 0, 0, 255⟩).2
        "a.svg" (10, 10) true ⟨0, 0, 0, 255⟩).1 = 1 ∧
    (alookup
        (GetHandle ⟨fun _ => some "svg", fun _ => some ⟨30, 40, 1, 2, 3, 4⟩⟩
          (fun _ _ f _ => if f then 1 else 2)
          (GetHandle ⟨fun _ => some "svg", fun _ => some ⟨30, 40, 1, 2, 3, 4⟩⟩
            (fun _ _ f _ => if f then 1 else 2)
            emptyCache "a.svg" (10, 10) false ⟨0, 0, 0, 255⟩).2
          "a.svg" (10, 10) true ⟨0, 0, 0, 255⟩).2.documents
        "a.svg").map (fun doc => doc.render_sizes.length) = some 1 := by
  constructor <;> rfl

/-- C2 (amended): the cache keeps one render-size entry per distinct pixel
dimensions; a second `GetHandle` with the same source and dimensions but a
different fit mode (and a distinct handle hash) reuses the render-size
entry created with the first call's fit mode, sharing its colour geometry
(reference count 2), and creates only a second handle entry. -/
theorem size_entry_reused_across_fit (env : CacheEnv) (hash : HashFn)
    (source : String) (dimensions : Vec2i) (fit1 fit2 : Bool) (colour : Colourb)
    (data : String) (d : SVGDocData)
    (hv1 hv2 : Nat) (st1 st2 : CacheState)
    (hsrc : ¬source = "")
    (hload : env.loadFile source = some data)
    (hparse : env.loadFromData data = some d)
    (hne : ¬hash source dimensions fit2 colour = hash source dimensions fit1 colour)
    (e1 : GetHandle env hash emptyCache source dimensions fit1 colour = (hv1, st1))
    (e2 : GetHandle env hash st1 source dimensions fit2 colour = (hv2, st2)) :
    ∃ doc, st2.documents = [(source, doc)] ∧
      doc.render_sizes =
        [{ render_dimensions := dimensions, content_fit := fit1,
           colours := [{ ref_count := 2, colour := colour, geometry := 0 }] }] ∧
      st2.handles.length = 2 := by
  rw [GetHandle_fresh env hash emptyCache source dimensions fit1 colour data d
    rfl rfl hsrc hload hparse] at e1
  injection e1 with e1a e1b
  subst e1a
  subst e1b
  simp only [emptyCache] at e2
  simp only [GetHandle, alookup, aupdate, aset, findSizeIdx, findIdxA, nthD, setN,
    freshDoc, freshHandle, hne, if_false, if_pos rfl, ite_true, ite_false,
    decide_eq_true_eq, if_neg hne, Prod.mk.injEq] at e2
  obtain ⟨e2a, e2b⟩ := e2
  subst e2a
  subst e2b
  exact ⟨_, rfl, by simp, rfl⟩

/-- C3: with one source cached at two different pixel dimensions (two
render-size entries under one shared document), releasing the last handle
for the first render size removes only that render-size entry; the other
render-size entry, its handle and the document entry survive.  Releasing
the remaining handle then erases the document as well. -/
theorem release_cascade_bottom_up (env : CacheEnv) (hash : HashFn)
    (source : String) (dims1 dims2 : Vec2i) (fit : Bool) (colour : Colourb)
    (data : String) (d : SVGDocData)
    (hv1 hv2 : Nat) (st1 st2 st3 st4 : CacheState)
    (hsrc : ¬source = "")
    (hload : env.loadFile source = some data)
    (hparse : env.loadFromData data = some d)
    (hdims : ¬dims1 = dims2)
    (hne : ¬hash source dims2 fit colour = hash source dims1 fit colour)
    (e1 : GetHandle env hash emptyCache source dims1 fit colour = (hv1, st1))
    (e2 : GetHandle env hash st1 source dims2 fit colour = (hv2, st2))
    (e3 : ReleaseHandle st2 hv1 = st3)
    (e4 : ReleaseHandle st3 hv2 = st4) :
    (∃ doc, st3.documents = [(source, doc)] ∧
      doc.render_sizes =
        [{ render_dimensions := dims2, content_fit := fit,
           colours := [{ ref_count := 1, colour := colour, geometry := 1 }] }]) ∧
    (∃ hdl2, st3.handles = [(hv2, hdl2)]) ∧
    st4.documents = [] ∧ st4.handles = [] := by
  have hne2 : ¬(hash source dims1 fit colour = hash source dims2 fit colour) :=
    fun h => hne h.symm
  rw [GetHandle_fresh env hash emptyCache source dims1 fit colour data d
    rfl rfl hsrc hload hparse] at e1
  injection e1 with e1a e1b
  subst e1a
  subst e1b
  simp only [emptyCache] at e2
  simp [GetHandle, alookup, aupdate, aset, findSizeIdx, findIdxA, nthD, setN,
    freshDoc, freshHandle, hne, hdims, Prod.mk.injEq] at e2
  obtain ⟨e2a, e2b⟩ := e2
  subst e2a
  subst e2b
  simp [ReleaseHandle, alookup, aupdate, aerase, aset, findSizeIdx, findIdxA,
    nthD, setN, swapPop, lastD, dropLastA, hne, hne2, hdims] at e3
  subst e3
  simp [ReleaseHandle, alookup, aupdate, aerase, aset, findSizeIdx, findIdxA,
    nthD, setN, swapPop, lastD, dropLastA] at e4
  subst e4
  exact ⟨⟨_, rfl, rfl⟩, ⟨_, rfl⟩, rfl, rfl⟩

/-- Closed witness for `size_entry_reused_across_fit` at a concrete
environment, hash function and parameter set. -/
theorem size_entry_reused_across_fit_witness :
    ∃ doc,
      (GetHandle ⟨fun _ => some "svg", fun _ => some ⟨30, 40, 1, 2, 3, 4⟩⟩
          (fun _ _ f _ => if f then 1 else 2)
          (GetHandle ⟨fun _ => some "svg", fun _ => some ⟨30, 40, 1, 2, 3, 4⟩⟩
            (fun _ _ f _ => if f then 1 else 2)
            emptyCache "a.svg" (10, 10) false ⟨0, 0, 0, 255⟩).2
          "a.svg" (10, 10) true ⟨0, 0, 0, 255⟩).2.documents = [("a.svg", doc)] ∧
      doc.render_sizes =
        [{ render_dimensions := (10, 10), content_fit := false,
           colours := [{ ref_count := 2, colour := ⟨0, 0, 0, 255⟩, geometry := 0 }] }] ∧
      (GetHandle ⟨fun _ => some "svg", fun _ => some ⟨30, 40, 1, 2, 3, 4⟩⟩
          (fun _ _ f _ => if f then 1 else 2)
          (GetHandle ⟨fun _ => some "svg", fun _ => some ⟨30, 40, 1, 2, 3, 4⟩⟩
            (fun _ _ f _ => if f then 1 else 2)
            emptyCache "a.svg" (10, 10) false ⟨0, 0, 0, 255⟩).2
          "a.svg" (10, 10) true ⟨0, 0, 0, 255⟩).2.handles.length = 2 :=
  size_entry_reused_across_fit ⟨fun _ => some "svg", fun _ => some ⟨30, 40, 1, 2, 3, 4⟩⟩
    (fun _ _ f _ => if f then 1 else 2) "a.svg" (10, 10) false true ⟨0, 0, 0, 255⟩
    "svg" ⟨30, 40, 1, 2, 3, 4⟩ 2 1 _ _ (by decide) rfl rfl (by decide) rfl rfl

/-- Closed witness for `release_cascade_bottom_up` at a concrete
environment, hash function and parameter set. -/
theorem release_cascade_bottom_up_witness :
    (ReleaseHandle
      (ReleaseHandle
        (GetHandle ⟨fun _ => some "svg", fun _ => some ⟨30, 40, 1, 2, 3, 4⟩⟩
          (fun _ dims _ _ => if dims.1 = 10 then 11 else 22)
          (GetHandle ⟨fun _ => some "svg", fun _ => some ⟨30, 40, 1, 2, 3, 4⟩⟩
            (fun _ dims _ _ => if dims.1 = 10 then 11 else 22)
            emptyCache "a.svg" (10, 10) false ⟨0, 0, 0, 255⟩).2
          "a.svg" (20, 20) false ⟨0, 0, 0, 255⟩).2
        11) 22).documents = [] :=
  (release_cascade_bottom_up ⟨fun _ => some "svg", fun _ => some ⟨30, 40, 1, 2, 3, 4⟩⟩
    (fun _ dims _ _ => if dims.1 = 10 then 11 else 22) "a.svg" (10, 10) (20, 20) false
    ⟨0, 0, 0, 255⟩ "svg" ⟨30, 40, 1, 2, 3, 4⟩ 11 22 _ _ _ _
    (by decide) rfl rfl (by decide) (by decide) rfl rfl rfl rfl).2.2.1

/-- C4: when the requested handle and document are not cached and the
source is the empty string, cannot be loaded, or cannot be parsed,
`GetHandle` returns the invalid handle 0 and the global state unchanged —
no document entry and no handle entry is created (the source also logs a
warning on this path). -/
theorem gethandle_failure_no_mutation (env : CacheEnv) (hash : HashFn)
    (st : CacheState) (source : String) (dimensions : Vec2i) (content_fit : Bool)
    (colour : Colourb)
    (hh : alookup st.handles (hash source dimensions content_fit colour) = none)
    (hd : alookup st.documents source = none)
    (hfail : source = "" ∨ env.loadFile source = none ∨
      ∃ data, env.loadFile source = some data ∧ env.loadFromData data = none) :
    GetHandle env hash st source dimensions content_fit colour = (0, st) := by
  simp only [GetHandle, hh, hd]
  rcases hfail with h | h | ⟨data, h1, h2⟩
  · subst h
    simp
  · by_cases hs : source = ""
    · subst hs
      simp
    · simp [hs, h]
  · by_cases hs : source = ""
    · subst hs
      simp
    · simp [hs, h1, h2]

/-- Closed witness for `gethandle_failure_no_mutation`: an empty source on
the empty cache. -/
theorem gethandle_failure_no_mutation_witness :
    GetHandle ⟨fun _ => some "svg", fun _ => some ⟨30, 40, 1, 2, 3, 4⟩⟩
      (fun _ _ _ _ => 7) emptyCache "" (5, 5) false ⟨0, 0, 0, 255⟩ = (0, emptyCache) :=
  gethandle_failure_no_mutation ⟨fun _ => some "svg", fun _ => some ⟨30, 40, 1, 2, 3, 4⟩⟩
    (fun _ _ _ _ => 7) emptyCache "" (5, 5) false ⟨0, 0, 0, 255⟩ rfl rfl (Or.inl rfl)

/-- C10: `GetGeometry` returns a null geometry and leaves the
intrinsic-dimensions output parameter untouched for any handle value
absent from the handle table, and returns the shared geometry together
with the stored intrinsic dimensions for any live handle.  (It takes the
state only by value and returns none, so it can change no cache state.) -/
theorem getgeometry_contract (st : CacheState) (handle : Nat) (dims0 : Vec2q) :
    (alookup st.handles handle = none → GetGeometry st handle dims0 = (none, dims0)) ∧
    (∀ hdl, alookup st.handles handle = some hdl →
      GetGeometry st handle dims0 = (some hdl.geometry, hdl.intrinsic_dimensions)) := by
  constructor
  · intro h
    simp [GetGeometry, h]
  · intro hdl h
    simp [GetGeometry, h]

/-- Closed witness for `getgeometry_contract`: one live handle (hit) and
one absent handle value (miss) on a small concrete state. -/
theorem getgeometry_contract_witness :
    GetGeometry ⟨[], [(7, ⟨1, 3, (10, 10), (30, 40), "a.svg"⟩)], 1⟩ 7 (9, 9) =
      (some 3, (30, 40)) ∧
    GetGeometry ⟨[], [(7, ⟨1, 3, (10, 10), (30, 40), "a.svg"⟩)], 1⟩ 8 (9, 9) =
      (none, (9, 9)) :=
  ⟨(getgeometry_contract ⟨[], [(7, ⟨1, 3, (10, 10), (30, 40), "a.svg"⟩)], 1⟩ 7 (9, 9)).2
      ⟨1, 3, (10, 10), (30, 40), "a.svg"⟩ rfl,
    (getgeometry_contract ⟨[], [(7, ⟨1, 3, (10, 10), (30, 40), "a.svg"⟩)], 1⟩ 8 (9, 9)).1
      (by decide)⟩

end SVGCache

namespace SVGCacheV3

/-- `SVGDoc::Size::Colour` of the three-argument cache variant. -/
structure ColourEntry where
  ref_count : Nat
  colour : Colourb
  geometry : Nat
deriving DecidableEq, Repr

instance : Inhabited ColourEntry := ⟨⟨0, default, 0⟩⟩

/-- `SVGDoc::Size` of the three-argument cache variant: no fit mode is
stored; sizes are identified by their pixel dimensions alone. -/
structure SizeEntry where
  render_dimensions : Vec2i
  colours : List ColourEntry
deriving DecidableEq, Repr

instance : Inhabited SizeEntry := ⟨⟨(0, 0), []⟩⟩

/-- `SVGDoc` of the three-argument cache variant. -/
structure SVGDoc where
  intrinsic_dimensions : Vec2q
  svg_document : SVGDocData
  render_sizes : List SizeEntry
deriving DecidableEq, Repr

instance : Inhabited SVGDoc := ⟨⟨(0, 0), default, []⟩⟩

/-- `Handle` of the three-argument cache variant: no intrinsic dimensions
are stored; `GetGeometry` reads them from the document map instead. -/
structure Handle where
  ref_count : Nat
  geometry : Nat
  dimensions : Vec2i
  source : String
deriving DecidableEq, Repr

instance : Inhabited Handle := ⟨⟨0, 0, (0, 0), ""⟩⟩

/-- The two global tables of the three-argument cache variant, plus the
fresh-geometry counter. -/
structure CacheState where
  documents : List (String × SVGDoc)
  handles : List (Nat × Handle)
  next_geom : Nat
deriving DecidableEq, Repr

/-- The state after `SVGCache::Deninitialize`, and the initial state. -/
def emptyCache : CacheState := ⟨[], [], 0⟩

/-- `FindSize` of the three-argument variant. -/
def findSizeIdx (sizes : List SizeEntry) (dimensions : Vec2i) : Option Nat :=
  findIdxA (fun el => el.render_dimensions = dimensions) sizes

/-- Handle-key hash of the three-argument variant (`HashCombine` over the
source, the dimension components and the first sixteen bits of the
colour), kept abstract. -/
abbrev HashFn := String → Vec2i → Colourb → Nat

/-- `SVGCache::GetHandle(source, dimensions, colour)` (three-argument
variant). -/
def GetHandle (env : CacheEnv) (hash : HashFn) (st : CacheState)
    (source : String) (dimensions : Vec2i) (colour : Colourb) :
    Nat × CacheState :=
  let handle := hash source dimensions colour
  match alookup st.handles handle with
  | some _ =>
    (handle,
      { st with handles := aupdate (fun h => { h with ref_count := h.ref_count + 1 }) st.handles handle })
  | none =>
    -- find or create a document
    let docres : Option (SVGDoc × List (String × SVGDoc)) :=
      match alookup st.documents source with
      | some doc => some (doc, st.documents)
      | none =>
        if source = "" then none
        else
          match env.loadFile source with
          | none => none  -- warning logged: could not load SVG file
          | some svg_data =>
            match env.loadFromData svg_data with
            | none => none  -- warning logged: could not load SVG data
            | some d =>
              let doc : SVGDoc :=
                { intrinsic_dimensions := (max d.width 1, max d.height 1)
                  svg_document := d
                  render_sizes := [] }
              some (doc, (source, doc) :: st.documents)
    match docres with
    | none => (0, st)
    | some (doc0, documents0) =>
      -- find or create texture
      let szres : Nat × SVGDoc :=
        match findSizeIdx doc0.render_sizes dimensions with
        | some i => (i, doc0)
        | none =>
          (doc0.render_sizes.length,
            { doc0 with render_sizes :=
                doc0.render_sizes ++ [{ render_dimensions := dimensions, colours := [] }] })
      let ti := szres.1
      let doc1 := szres.2
      let sz := nthD doc1.render_sizes ti
      -- find or create geometry
      let colres : SizeEntry × Nat × Nat :=
        match findIdxA (fun col_el => col_el.colour = colour) sz.colours with
        | some ci =>
          let c := nthD sz.colours ci
          ({ sz with colours := setN sz.colours ci { c with ref_count := c.ref_count + 1 } },
            c.geometry, st.next_geom)
        | none =>
          ({ sz with colours := sz.colours ++ [{ ref_count := 1, colour := colour, geometry := st.next_geom }] },
            st.next_geom, st.next_geom + 1)
      let doc2 := { doc1 with render_sizes := setN doc1.render_sizes ti colres.1 }
      -- create the handle
      let svg_handle : Handle :=
        { ref_count := 1
          geometry := colres.2.1
          dimensions := dimensions
          source := source }
      (handle,
        { documents := aset documents0 source doc2
          handles := (handle, svg_handle) :: st.handles
          next_geom := colres.2.2 })

/-- `SVGCache::ReleaseHandle` (three-argument variant; identical cascade
logic to the four-argument variant). -/
def ReleaseHandle (st : CacheState) (handle : Nat) : CacheState :=
  match alookup st.handles handle with
  | none => st  -- RMLUI_ASSERT(found_it != handles.cend())
  | some svg_handle =>
    if svg_handle.ref_count - 1 = 0 then
      let documents1 :=
        match alookup st.documents svg_handle.source with
        | none => st.documents  -- RMLUI_ASSERT(found_doc != documents.cend())
        | some doc =>
          match findSizeIdx doc.render_sizes svg_handle.dimensions with
          | none => st.documents  -- RMLUI_ASSERT(found_texture != ...)
          | some ti =>
            let sz := nthD doc.render_sizes ti
            match findIdxA (fun col_el => col_el.geometry = svg_handle.geometry) sz.colours with
            | none => st.documents  -- RMLUI_ASSERT(found_geo != ...)
            | some gi =>
              let ge := nthD sz.colours gi
              if ge.ref_count - 1 = 0 then
                if sz.colours.length > 1 then
                  let sz1 := { sz with colours := swapPop sz.colours gi }
                  aset st.documents svg_handle.source
                    { doc with render_sizes := setN doc.render_sizes ti sz1 }
                else if doc.render_sizes.length > 1 then
                  aset st.documents svg_handle.source
                    { doc with render_sizes := swapPop doc.render_sizes ti }
                else
                  aerase st.documents svg_handle.source
              else
                let sz1 := { sz with colours := setN sz.colours gi { ge with ref_count := ge.ref_count - 1 } }
                aset st.documents svg_handle.source
                  { doc with render_sizes := setN doc.render_sizes ti sz1 }
      { st with documents := documents1, handles := aerase st.handles handle }
    else
      { st with handles := aupdate (fun h => { h with ref_count := h.ref_count - 1 }) st.handles handle }

/-- `SVGCache::GetGeometry` (three-argument variant): intrinsic dimensions
are read from the document map; the missing-document case is an assertion
failure in the source and is modelled as leaving the output parameter
untouched. -/
def GetGeometry (st : CacheState) (handle : Nat) (intrinsic_dimensions : Vec2q) :
    Option Nat × Vec2q :=
  match alookup st.handles handle with
  | none => (none, intrinsic_dimensions)
  | some h =>
    match alookup st.documents h.source with
    | none => (some h.geometry, intrinsic_dimensions)  -- RMLUI_ASSERT(found_doc != ...)
    | some doc => (some h.geometry, doc.intrinsic_dimensions)

end SVGCacheV3

namespace ElementSVG

/-- The per-update environment of `ElementSVG::UpdateCachedData`: the
current `"src"` attribute value, the owning document's source URL (with
`|` already replaced by `:`), the system interface's `JoinPath`, the
computed tint colour (`image_color` with opacity premultiplied into the
alpha byte), and the rounded content-box size. -/
structure ElemEnv where
  attribute_src : String
  owner_document_url : Option String
  joinPath : String → String → String
  tint : Colourb
  box_content_size : Vec2i

/-- The element state named in `ElementSVG.cpp`: the cache handle, the
borrowed geometry pointer, the resolved source path, cached intrinsic and
render dimensions, and the two dirty flags. -/
structure ElemState where
  handle : Nat
  geometry : Option Nat
  source_path : String
  intrinsic_dimensions : Vec2q
  render_dimensions : Vec2i
  is_dirty : Bool
  source_dirty : Bool
deriving DecidableEq, Repr

/-- A freshly constructed element: the constructor sets `geometry` to
null; the member initializers (header not among the sources, values as
implied by the destructor and update guards) give a zero handle, an empty
source path and clear dirty flags. -/
def freshElement : ElemState :=
  { handle := 0, geometry := none, source_path := "", intrinsic_dimensions := (0, 0)
    render_dimensions := (0, 0), is_dirty := false, source_dirty := false }

/-- The source-path resolution step of `ElementSVG::UpdateCachedData`:
when the source is dirty and the `"src"` attribute is non-empty, the new
path is the attribute joined against the owning document's URL (or the
attribute itself without an owning document); otherwise the stored path is
kept. -/
def resolvedPath (env : ElemEnv) (e : ElemState) : String :=
  if e.source_dirty then
    if env.attribute_src = "" then e.source_path
    else
      match env.owner_document_url with
      | some url => env.joinPath url env.attribute_src
      | none => env.attribute_src
  else e.source_path

/-- `ElementSVG::UpdateCachedData`.  Besides the updated element and cache
state it returns the list of (non-zero) handles obtained from
`SVGCache::GetHandle` and the list of handles passed to
`SVGCache::ReleaseHandle` during the call, for lease-balance bookkeeping.
Note the source's guard `if (!is_dirty || !source_dirty) return;` — the
update body runs only when BOTH dirty flags are set — and that only
`is_dirty` is ever cleared. -/
def UpdateCachedData (cenv : CacheEnv) (hash : SVGCacheV3.HashFn) (env : ElemEnv)
    (e : ElemState) (cache : SVGCacheV3.CacheState) :
    ElemState × SVGCacheV3.CacheState × List Nat × List Nat :=
  if ¬e.is_dirty ∨ ¬e.source_dirty then (e, cache, [], [])
  else
    let sp := resolvedPath env e
    if sp = "" then
      let e1 := { e with source_path := sp, geometry := none, intrinsic_dimensions := ((0 : Rat), (0 : Rat)) }
      if e.handle ≠ 0 then
        (e1, SVGCacheV3.ReleaseHandle cache e.handle, [], [e.handle])
      else
        (e1, cache, [], [])
    else
      let colour := env.tint
      let rd := env.box_content_size
      let res := SVGCacheV3.GetHandle cenv hash cache sp rd colour
      let new_handle := res.1
      let cache1 := res.2
      if new_handle = 0 then
        let e1 := { e with source_path := sp, render_dimensions := rd, geometry := none, intrinsic_dimensions := ((0 : Rat), (0 : Rat)) }
        (e1, cache1, [], [])
      else
        let gres := SVGCacheV3.GetGeometry cache1 new_handle e.intrinsic_dimensions
        let e1 := { e with source_path := sp, render_dimensions := rd, geometry := gres.1, intrinsic_dimensions := gres.2, handle := new_handle, is_dirty := false }
        if e.handle ≠ 0 then
          (e1, SVGCacheV3.ReleaseHandle cache1 e.handle, [new_handle], [e.handle])
        else
          (e1, cache1, [new_handle], [])

/-- The element-facing events of `ElementSVG`: an attribute change naming
`"src"` (`OnAttributeChange`, sets the source-dirty flag), a box resize
(`OnResize`, sets the size/style-dirty flag), a relevant property change
(`OnPropertyChange` on `ImageColor`/`Opacity`, sets the size/style-dirty
flag), and a render or intrinsic-size query (both call
`UpdateCachedData`). -/
inductive SVGEvent : Type
  | srcAttrChanged
  | resize
  | propertyChange
  | update (env : ElemEnv)

/-- One event step, accumulating obtained and released handle lists. -/
def stepEvent (cenv : CacheEnv) (hash : SVGCacheV3.HashFn)
    (s : ElemState × SVGCacheV3.CacheState × List Nat × List Nat) :
    SVGEvent → ElemState × SVGCacheV3.CacheState × List Nat × List Nat
  | .srcAttrChanged => ({ s.1 with source_dirty := true }, s.2.1, s.2.2.1, s.2.2.2)
  | .resize => ({ s.1 with is_dirty := true }, s.2.1, s.2.2.1, s.2.2.2)
  | .propertyChange => ({ s.1 with is_dirty := true }, s.2.1, s.2.2.1, s.2.2.2)
  | .update env =>
    let r := UpdateCachedData cenv hash env s.1 s.2.1
    (r.1, r.2.1, s.2.2.1 ++ r.2.2.1, s.2.2.2 ++ r.2.2.2)

/-- Run a sequence of events from a starting element/cache state. -/
def runEvents (cenv : CacheEnv) (hash : SVGCacheV3.HashFn)
    (events : List SVGEvent)
    (s : ElemState × SVGCacheV3.CacheState × List Nat × List Nat) :
    ElemState × SVGCacheV3.CacheState × List Nat × List Nat :=
  events.foldl (stepEvent cenv hash) s

/-- `ElementSVG::~ElementSVG`: releases the held handle if non-zero. -/
def destroyElement (e : ElemState) (c : SVGCacheV3.CacheState) :
    SVGCacheV3.CacheState × List Nat :=
  if e.handle ≠ 0 then (SVGCacheV3.ReleaseHandle c e.handle, [e.handle]) else (c, [])

/-- The whole lifetime of one element: run the events, then destroy it.
Returns the list of handles obtained and the list of handles released. -/
def lifetime (cenv : CacheEnv) (hash : SVGCacheV3.HashFn)
    (events : List SVGEvent) (c0 : SVGCacheV3.CacheState) : List Nat × List Nat :=
  let r := runEvents cenv hash events (freshElement, c0, [], [])
  let d := destroyElement r.1 r.2.1
  (r.2.2.1, r.2.2.2 ++ d.2)

/-- Every obtained handle is released exactly as often as it was
obtained. -/
def HandleBalanced (ar : List Nat × List Nat) : Prop :=
  ∀ h, ar.2.count h = ar.1.count h

/-- An update environment is well-formed when the system interface's path
join never turns a non-empty source attribute into an empty path. -/
def EventEnvOK : SVGEvent → Prop
  | .update env => ∀ url a, a ≠ "" → env.joinPath url a ≠ ""
  | _ => True

/-- The lease-balance invariant carried across an element's life: obtained
and released counts differ exactly by the currently held handle, and a
held handle implies a non-empty resolved source path. -/
def BalInv (e : ElemState) (a r : List Nat) : Prop :=
  (∀ h, a.count h = r.count h + (if e.handle = h ∧ e.handle ≠ 0 then 1 else 0)) ∧
  (e.handle ≠ 0 → e.source_path ≠ "")

/-- C5 (counterexample): an element with only the source-dirty flag set
(the size/style-dirty flag clear) is NOT recomputed: `UpdateCachedData`
returns the element, the cache and empty handle-traffic lists unchanged,
because the source guards with `if (!is_dirty || !source_dirty) return;`.
The source attribute is non-empty and loading would succeed, so the claim
would demand a resolved path, a new handle and cleared flags. -/
theorem update_any_dirty_counterexample :
    UpdateCachedData ⟨fun _ => some "svg", fun _ => some ⟨30, 40, 1, 2, 3, 4⟩⟩
      (fun _ _ _ => 5) ⟨"a.svg", none, fun _ a => a, ⟨0, 0, 0, 255⟩, (10, 10)⟩
      { handle := 0, geometry := none, source_path := "", intrinsic_dimensions := (0, 0)
        render_dimensions := (0, 0), is_dirty := false, source_dirty := true }
      SVGCacheV3.emptyCache =
    ({ handle := 0, geometry := none, source_path := "", intrinsic_dimensions := (0, 0)
       render_dimensions := (0, 0), is_dirty := false, source_dirty := true },
      SVGCacheV3.emptyCache, [], []) := rfl

/-- C5 (amended): the adapter recomputes only when BOTH dirty flags are
set.  It then resolves the source path, computes dimensions and tint from
the environment, requests a new handle, fetches the geometry, and — only
after the new handle has been acquired — releases the previously held
handle (if any); it clears the size/style-dirty flag but leaves the
source-dirty flag set. -/
theorem update_recompute_behaviour (cenv : CacheEnv) (hash : SVGCacheV3.HashFn)
    (env : ElemEnv) (e : ElemState) (cache : SVGCacheV3.CacheState)
    (nh : Nat) (cache1 : SVGCacheV3.CacheState)
    (hdirty : e.is_dirty = true) (hsdirty : e.source_dirty = true)
    (hsp : ¬resolvedPath env e = "")
    (hres : SVGCacheV3.GetHandle cenv hash cache (resolvedPath env e)
      env.box_content_size env.tint = (nh, cache1))
    (hnh : ¬nh = 0) :
    UpdateCachedData cenv hash env e cache =
      ({ e with
          source_path := resolvedPath env e,
          render_dimensions := env.box_content_size,
          geometry := (SVGCacheV3.GetGeometry cache1 nh e.intrinsic_dimensions).1,
          intrinsic_dimensions := (SVGCacheV3.GetGeometry cache1 nh e.intrinsic_dimensions).2,
          handle := nh,
          is_dirty := false },
        (if e.handle ≠ 0 then SVGCacheV3.ReleaseHandle cache1 e.handle else cache1),
        [nh],
        (if e.handle ≠ 0 then [e.handle] else [])) ∧
    (UpdateCachedData cenv hash env e cache).1.source_dirty = true := by
  have hmain : UpdateCachedData cenv hash env e cache =
      ({ e with
          source_path := resolvedPath env e,
          render_dimensions := env.box_content_size,
          geometry := (SVGCacheV3.GetGeometry cache1 nh e.intrinsic_dimensions).1,
          intrinsic_dimensions := (SVGCacheV3.GetGeometry cache1 nh e.intrinsic_dimensions).2,
          handle := nh,
          is_dirty := false },
        (if e.handle ≠ 0 then SVGCacheV3.ReleaseHandle cache1 e.handle else cache1),
        [nh],
        (if e.handle ≠ 0 then [e.handle] else [])) := by
    simp only [UpdateCachedData, hdirty, hsdirty, not_true_eq_false, or_self, ite_false,
      if_neg hsp, hres, if_neg hnh]
    by_cases hold : e.handle ≠ 0
    · simp only [if_pos hold]
    · simp only [if_neg hold]
  refine ⟨hmain, ?_⟩
  rw [hmain]
  exact hsdirty

/-- Closed witness for `update_recompute_behaviour`: a fresh element with
both dirty flags set, a resolvable source and a working loader. -/
theorem update_recompute_behaviour_witness :
    UpdateCachedData ⟨fun _ => some "svg", fun _ => some ⟨30, 40, 1, 2, 3, 4⟩⟩
      (fun _ _ _ => 5) ⟨"a.svg", none, fun _ a => a, ⟨0, 0, 0, 255⟩, (10, 10)⟩
      { handle := 0, geometry := none, source_path := "", intrinsic_dimensions := (0, 0)
        render_dimensions := (0, 0), is_dirty := true, source_dirty := true }
      SVGCacheV3.emptyCache =
    ({ handle := 5, geometry := some 0, source_path := "a.svg", intrinsic_dimensions := (30, 40)
       render_dimensions := (10, 10), is_dirty := false, source_dirty := true },
      (SVGCacheV3.GetHandle ⟨fun _ => some "svg", fun _ => some ⟨30, 40, 1, 2, 3, 4⟩⟩
        (fun _ _ _ => 5) SVGCacheV3.emptyCache "a.svg" (10, 10) ⟨0, 0, 0, 255⟩).2,
      [5], []) := by
  have h := (update_recompute_behaviour ⟨fun _ => some "svg", fun _ => some ⟨30, 40, 1, 2, 3, 4⟩⟩
    (fun _ _ _ => 5) ⟨"a.svg", none, fun _ a => a, ⟨0, 0, 0, 255⟩, (10, 10)⟩
    { handle := 0, geometry := none, source_path := "", intrinsic_dimensions := (0, 0)
      render_dimensions := (0, 0), is_dirty := true, source_dirty := true }
    SVGCacheV3.emptyCache 5 _ rfl rfl (by decide) rfl (by decide)).1
  rw [h]
  rfl

/-- The balance invariant is preserved by every well-formed event step. -/
theorem stepEvent_preserves_balance (cenv : CacheEnv) (hash : SVGCacheV3.HashFn)
    (ev : SVGEvent) (s : ElemState × SVGCacheV3.CacheState × List Nat × List Nat)
    (hok : EventEnvOK ev) (hinv : BalInv s.1 s.2.2.1 s.2.2.2) :
    BalInv (stepEvent cenv hash s ev).1 (stepEvent cenv hash s ev).2.2.1
      (stepEvent cenv hash s ev).2.2.2 := by
  obtain ⟨e, c, a, r⟩ := s
  obtain ⟨hcount, hsrc⟩ := hinv
  cases ev with
  | srcAttrChanged => exact ⟨hcount, hsrc⟩
  | resize => exact ⟨hcount, hsrc⟩
  | propertyChange => exact ⟨hcount, hsrc⟩
  | update env =>
    simp only [stepEvent, UpdateCachedData, resolvedPath]
    by_cases hguard : ¬e.is_dirty ∨ ¬e.source_dirty
    · simp only [if_pos hguard]
      exact ⟨by simpa using hcount, hsrc⟩
    · simp only [if_neg hguard]
      push_neg at hguard
      obtain ⟨hdirty, hsdirty⟩ := hguard
      simp only [hsdirty, ite_true, if_pos]
      by_cases hattr : env.attribute_src = ""
      · simp only [if_pos hattr]
        by_cases hsp : e.source_path = ""
        · have hz : e.handle = 0 := by
            by_contra hz
            exact hsrc hz hsp
          simp only [if_pos hsp, hz, ne_eq, not_true_eq_false, ite_false,
            List.append_nil]
          refine ⟨fun h => ?_, fun hcontra => absurd rfl hcontra⟩
          simpa [hz] using hcount h
        · simp only [if_neg hsp]
          rcases hres : SVGCacheV3.GetHandle cenv hash c e.source_path
            env.box_content_size env.tint with ⟨nh, c1⟩
          by_cases hnh : nh = 0
          · simp only [hres, hnh, ite_true, if_pos, List.append_nil]
            refine ⟨fun h => by simpa using hcount h, fun _ => hsp⟩
          · simp only [hres, if_neg hnh]
            by_cases hold : e.handle ≠ 0
            · simp only [if_pos hold, ne_eq]
              refine ⟨fun h => ?_, fun _ => hsp⟩
              have hbase := hcount h
              simp only [ne_eq, hold, not_false_eq_true, and_true] at hbase
              simp only [ne_eq, hnh, not_false_eq_true, and_true, beq_iff_eq,
                List.count_append, List.count_cons, List.count_nil, hbase]
              split_ifs <;> omega
            · simp only [if_neg hold]
              push_neg at hold
              refine ⟨fun h => ?_, fun _ => hsp⟩
              have hbase := hcount h
              simp only [hold, ne_eq, not_true_eq_false, and_false, ite_false,
                Nat.add_zero] at hbase
              simp only [ne_eq, hnh, not_false_eq_true, and_true, beq_iff_eq,
                List.count_append, List.count_cons, List.count_nil, hbase]
              split_ifs <;> omega
      · simp only [if_neg hattr]
        have hspne : (match env.owner_document_url with
            | some url => env.joinPath url env.attribute_src
            | none => env.attribute_src) ≠ "" := by
          cases env.owner_document_url with
          | none => exact hattr
          | some url => exact hok url env.attribute_src hattr
        simp only [if_neg hspne]
        rcases hres : SVGCacheV3.GetHandle cenv hash c _ env.box_content_size env.tint
          with ⟨nh, c1⟩
        by_cases hnh : nh = 0
        · simp only [hres, hnh, ite_true, if_pos, List.append_nil]
          refine ⟨fun h => by simpa using hcount h, fun _ => hspne⟩
        · simp only [hres, if_neg hnh]
          by_cases hold : e.handle ≠ 0
          · simp only [if_pos hold, ne_eq]
            refine ⟨fun h => ?_, fun _ => hspne⟩
            have hbase := hcount h
            simp only [ne_eq, hold, not_false_eq_true, and_true] at hbase
            simp only [ne_eq, hnh, not_false_eq_true, and_true, beq_iff_eq,
              List.count_append, List.count_cons, List.count_nil, hbase]
            split_ifs <;> omega
          · simp only [if_neg hold]
            push_neg at hold
            refine ⟨fun h => ?_, fun _ => hspne⟩
            have hbase := hcount h
            simp only [hold, ne_eq, not_true_eq_false, and_false, ite_false,
              Nat.add_zero] at hbase
            simp only [ne_eq, hnh, not_false_eq_true, and_true, beq_iff_eq,
              List.count_append, List.count_cons, List.count_nil, hbase]
            split_ifs <;> omega

/-- The balance invariant is preserved by any well-formed event
sequence. -/
theorem runEvents_preserves_balance (cenv : CacheEnv) (hash : SVGCacheV3.HashFn)
    (events : List SVGEvent)
    (s : ElemState × SVGCacheV3.CacheState × List Nat × List Nat)
    (hok : ∀ ev ∈ events, EventEnvOK ev) (hinv : BalInv s.1 s.2.2.1 s.2.2.2) :
    BalInv (runEvents cenv hash events s).1 (runEvents cenv hash events s).2.2.1
      (runEvents cenv hash events s).2.2.2 := by
  induction events generalizing s with
  | nil => exact hinv
  | cons ev rest ih =>
    simp only [runEvents, List.foldl_cons]
    exact ih _ (fun e he => hok e (List.mem_cons_of_mem _ he))
      (stepEvent_preserves_balance cenv hash ev s (hok ev (List.mem_cons_self _ _)) hinv)

/-- C6: across any lifetime of an `ElementSVG` — any sequence of source
attribute changes, resizes, property changes and renders, followed by
destruction — every (non-zero) handle the element obtained from
`GetHandle` is passed to `ReleaseHandle` exactly once; in particular no
handle is ever released twice.  The system interface's `JoinPath` is
assumed not to turn a non-empty source attribute into an empty path. -/
theorem element_handle_lease_balance (cenv : CacheEnv) (hash : SVGCacheV3.HashFn)
    (events : List SVGEvent) (c0 : SVGCacheV3.CacheState)
    (hok : ∀ ev ∈ events, EventEnvOK ev) :
    HandleBalanced (lifetime cenv hash events c0) := by
  have hinv := runEvents_preserves_balance cenv hash events
    (freshElement, c0, [], []) hok
    ⟨fun h => by simp [freshElement], fun h => absurd rfl h⟩
  intro h
  obtain ⟨hcount, _⟩ := hinv
  simp only [lifetime, destroyElement]
  by_cases hz : (runEvents cenv hash events (freshElement, c0, [], [])).1.handle ≠ 0
  · simp only [if_pos hz]
    have hbase := hcount h
    simp only [ne_eq, hz, not_false_eq_true, and_true] at hbase
    simp only [List.count_append, List.count_cons, List.count_nil, beq_iff_eq, hbase]
    split_ifs <;> omega
  · simp only [if_neg hz, List.append_nil]
    push_neg at hz
    have hbase := hcount h
    simp only [hz, ne_eq, not_true_eq_false, and_false, ite_false,
      Nat.add_zero] at hbase
    exact hbase.symm

/-- Closed witness for `element_handle_lease_balance`: the claim's cited
scenario — set a source and render (acquiring a handle), clear the source
attribute, render again, destroy. -/
theorem element_handle_lease_balance_witness :
    HandleBalanced (lifetime ⟨fun _ => some "svg", fun _ => some ⟨30, 40, 1, 2, 3, 4⟩⟩
      (fun _ _ _ => 5)
      [SVGEvent.srcAttrChanged, SVGEvent.resize,
        SVGEvent.update ⟨"a.svg", none, fun _ a => a, ⟨0, 0, 0, 255⟩, (10, 10)⟩,
        SVGEvent.srcAttrChanged,
        SVGEvent.update ⟨"", none, fun _ a => a, ⟨0, 0, 0, 255⟩, (10, 10)⟩]
      SVGCacheV3.emptyCache) :=
  element_handle_lease_balance ⟨fun _ => some "svg", fun _ => some ⟨30, 40, 1, 2, 3, 4⟩⟩
    (fun _ _ _ => 5) _ SVGCacheV3.emptyCache
    (by
      intro ev hev
      fin_cases hev
      · trivial
      · trivial
      · exact fun _ _ h => h
      · trivial
      · exact fun _ _ h => h)

end ElementSVG

namespace Gradient

/-- A two-dimensional real vector (`Rml::Vector2f` in the gradient maths,
where exact real arithmetic models the float computations). -/
abbrev Vec2r := ℝ × ℝ

/-- Modelled from the spec: `Math::NormaliseAnglePositive` lives in
`Source/Core/Math.cpp`, which is not among the provided sources; it maps
an angle in radians to the range `[0, 2π)`. -/
noncomputable def normaliseAnglePositive (angle : ℝ) : ℝ :=
  angle - 2 * Real.pi * ⌊angle / (2 * Real.pi)⌋

/-- `IntersectionPointToLineNormal`: the point along the line
(`line_point`, `line_vector`) closest to `point`. -/
noncomputable def IntersectionPointToLineNormal (point line_point line_vector : Vec2r) : Vec2r :=
  let delta : Vec2r := (line_point.1 - point.1, line_point.2 - point.2)
  let dot := delta.1 * line_vector.1 + delta.2 * line_vector.2
  (line_point.1 - dot * line_vector.1, line_point.2 - dot * line_vector.2)

/-- The quadrant selector of `CalculateLinearGradientShape`:
`uint(NormaliseAnglePositive(angle) * (4 / 2π)) % 4` (the unsigned
conversion truncates, and the normalised product is non-negative, so it is
the floor). -/
noncomputable def gradientQuadrant (angle : ℝ) : Nat :=
  (⌊normaliseAnglePositive angle * (4 / (2 * Real.pi))⌋).toNat % 4

/-- The corner table `{TOP_RIGHT, BOTTOM_RIGHT, BOTTOM_LEFT, TOP_LEFT}`. -/
def corners (dim : Vec2r) : Nat → Vec2r
  | 0 => (dim.1, 0)
  | 1 => dim
  | 2 => (0, dim.2)
  | _ => (0, 0)

/-- `LinearGradientShape { p0, p1, length }`. -/
structure LinearGradientShape where
  p0 : Vec2r
  p1 : Vec2r
  length : ℝ

/-- `CalculateLinearGradientShape(angle, dim)`. -/
noncomputable def CalculateLinearGradientShape (angle : ℝ) (dim : Vec2r) :
    LinearGradientShape :=
  let center : Vec2r := (0.5 * dim.1, 0.5 * dim.2)
  let quadrant := gradientQuadrant angle
  let quadrant_opposite := (quadrant + 2) % 4
  let line_vector : Vec2r := (Real.sin angle, -Real.cos angle)
  let starting_point := IntersectionPointToLineNormal (corners dim quadrant_opposite) center line_vector
  let ending_point := IntersectionPointToLineNormal (corners dim quadrant) center line_vector
  let distance := |dim.1 * line_vector.1| + |(-dim.2) * line_vector.2|
  ⟨starting_point, ending_point, distance⟩

/-- `RadialGradient::Shape`. -/
inductive RShape : Type
  | Circle
  | Ellipse
  | Unspecified
deriving DecidableEq

/-- `RadialGradient::SizeType`. -/
inductive RSizeType : Type
  | ClosestSide
  | FarthestSide
  | ClosestCorner
  | FarthestCorner
  | LengthPercentage
deriving DecidableEq

/-- The unit tag of a style-level `NumericValue` (resolution against the
element is delegated to the style system and modelled by an environment
function). -/
inductive RUnitTag : Type
  | number
  | percent
  | length
deriving DecidableEq

/-- A style-level `NumericValue`. -/
structure NumericValueR where
  number : ℝ
  unit : RUnitTag

/-- `RadialGradient::Size`. -/
structure RGSize where
  type : RSizeType
  x : NumericValueR
  y : NumericValueR

/-- `RadialGradient::Position`. -/
structure RGPosition where
  x : NumericValueR
  y : NumericValueR

/-- `RadialGradientShape { center, radius }`. -/
structure RadialGradientShape where
  center : Vec2r
  radius : Vec2r

/-- `CalculateRadialGradientShape(element, shape, size, position,
dimensions)`; `element->ResolveNumericValue` is the environment function
`resolve`.  The final `Math::Max(result.radius, Vector2f(1.f))` clamp is
applied to every branch's radius. -/
noncomputable def CalculateRadialGradientShape
    (resolve : NumericValueR → ℝ → ℝ) (shape : RShape) (size : RGSize)
    (position : RGPosition) (dimensions : Vec2r) : RadialGradientShape :=
  let c : Vec2r := (resolve position.x dimensions.1, resolve position.y dimensions.2)
  let is_circle := shape = RShape.Circle
  let d := dimensions
  let r0 : Vec2r :=
    match size.type with
    | RSizeType.ClosestSide =>
      let r : Vec2r := (|min c.1 (d.1 - c.1)|, |min c.2 (d.2 - c.2)|)
      if is_circle then (min r.1 r.2, min r.1 r.2) else r
    | RSizeType.FarthestSide =>
      let r : Vec2r := (|max c.1 (d.1 - c.1)|, |max c.2 (d.2 - c.2)|)
      if is_circle then (max r.1 r.2, max r.1 r.2) else r
    | RSizeType.ClosestCorner =>
      let r : Vec2r := (|min c.1 (d.1 - c.1)|, |min c.2 (d.2 - c.2)|)
      if is_circle then (Real.sqrt (r.1 ^ 2 + r.2 ^ 2), Real.sqrt (r.1 ^ 2 + r.2 ^ 2))
      else
        let r1 : Vec2r := (max r.1 1, max r.2 1)
        (Real.sqrt (2 * r1.1 * r1.1), Real.sqrt (2 * r1.1 * r1.1) * (r1.2 / r1.1))
    | RSizeType.FarthestCorner =>
      let r : Vec2r := (|max c.1 (d.1 - c.1)|, |max c.2 (d.2 - c.2)|)
      if is_circle then (Real.sqrt (r.1 ^ 2 + r.2 ^ 2), Real.sqrt (r.1 ^ 2 + r.2 ^ 2))
      else
        let r1 : Vec2r := (max r.1 1, max r.2 1)
        (Real.sqrt (2 * r1.1 * r1.1), Real.sqrt (2 * r1.1 * r1.1) * (r1.2 / r1.1))
    | RSizeType.LengthPercentage =>
      let rx := resolve size.x d.1
      let ry := if is_circle then rx else resolve size.y d.2
      (|rx|, |ry|)
  { center := c, radius := (max r0.1 1, max r0.2 1) }

/-- The divisor of the soft-spacing computation in
`DecoratorLinearGradient::GenerateElementData` (`soft_spacing = 1.f /
gradient_shape.length`, computed unconditionally). -/
noncomputable def linearSoftSpacingDenominator (angle : ℝ) (dim : Vec2r) : ℝ :=
  (CalculateLinearGradientShape angle dim).length

/-- `DecoratorLinearGradient::GenerateElementData` line: `const float
soft_spacing = 1.f / gradient_shape.length;` — no guard precedes it. -/
noncomputable def linearSoftSpacing (angle : ℝ) (dim : Vec2r) : ℝ :=
  1 / linearSoftSpacingDenominator angle dim

/-- The divisor of the soft-spacing computation in
`DecoratorRadialGradient::GenerateElementData` (`soft_spacing = 1.f /
Math::Min(radius.x, radius.y)`). -/
noncomputable def radialSoftSpacingDenominator
    (resolve : NumericValueR → ℝ → ℝ) (shape : RShape) (size : RGSize)
    (position : RGPosition) (dimensions : Vec2r) : ℝ :=
  min (CalculateRadialGradientShape resolve shape size position dimensions).radius.1
    (CalculateRadialGradientShape resolve shape size position dimensions).radius.2

/-- The projection of a corner onto the gradient line is a point of the
line through the given line point. -/
theorem intersection_param (p lp v : Vec2r) :
    ∃ t : ℝ, IntersectionPointToLineNormal p lp v = (lp.1 + t * v.1, lp.2 + t * v.2) := by
  refine ⟨-((lp.1 - p.1) * v.1 + (lp.2 - p.2) * v.2), ?_⟩
  simp only [IntersectionPointToLineNormal, Prod.mk.injEq]
  constructor <;> ring

/-- Angles already in `[0, 2π)` are fixed by the normalisation. -/
theorem normaliseAnglePositive_eq_self {θ : ℝ} (h0 : 0 ≤ θ) (h1 : θ < 2 * Real.pi) :
    normaliseAnglePositive θ = θ := by
  unfold normaliseAnglePositive
  have h2 : (0 : ℝ) < 2 * Real.pi := by positivity
  have hfl : ⌊θ / (2 * Real.pi)⌋ = 0 := by
    rw [Int.floor_eq_zero_iff]
    refine ⟨by positivity, ?_⟩
    rw [div_lt_one h2]
    exact h1
  rw [hfl]
  simp

/-- At angle 0 the quadrant selector picks `TOP_RIGHT`. -/
theorem gradientQuadrant_zero : gradientQuadrant 0 = 0 := by
  unfold gradientQuadrant
  rw [normaliseAnglePositive_eq_self le_rfl (by positivity)]
  simp

/-- At angle 90° (π/2 radians) the quadrant selector picks
`BOTTOM_RIGHT`. -/
theorem gradientQuadrant_pi_div_two : gradientQuadrant (Real.pi / 2) = 1 := by
  unfold gradientQuadrant
  rw [normaliseAnglePositive_eq_self (by positivity)
    (by linarith [Real.pi_pos])]
  have hmul : Real.pi / 2 * (4 / (2 * Real.pi)) = 1 := by
    field_simp
    ring
  rw [hmul]
  simp

/-- C8: for every angle and box, the linear gradient shape is a line
through the box center (both endpoints lie on the line through the center
with direction `(sin angle, -cos angle)`) whose axis length equals
`|width·sin angle| + |height·cos angle|`; at angle 0 on a 100×200 box it
is the vertical segment through the center with length 200, and at 90°
the horizontal segment through the center with length 100. -/
theorem linear_gradient_shape_spec :
    (∀ (angle : ℝ) (dim : Vec2r), ∃ t0 t1 : ℝ,
      (CalculateLinearGradientShape angle dim).p0 =
        (0.5 * dim.1 + t0 * Real.sin angle, 0.5 * dim.2 - t0 * Real.cos angle) ∧
      (CalculateLinearGradientShape angle dim).p1 =
        (0.5 * dim.1 + t1 * Real.sin angle, 0.5 * dim.2 - t1 * Real.cos angle) ∧
      (CalculateLinearGradientShape angle dim).length =
        |dim.1 * Real.sin angle| + |dim.2 * Real.cos angle|) ∧
    (CalculateLinearGradientShape 0 (100, 200)).p0 = (50, 200) ∧
    (CalculateLinearGradientShape 0 (100, 200)).p1 = (50, 0) ∧
    (CalculateLinearGradientShape 0 (100, 200)).length = 200 ∧
    (CalculateLinearGradientShape (Real.pi / 2) (100, 200)).p0 = (0, 100) ∧
    (CalculateLinearGradientShape (Real.pi / 2) (100, 200)).p1 = (100, 100) ∧
    (CalculateLinearGradientShape (Real.pi / 2) (100, 200)).length = 100 := by
  refine ⟨?_, ?_, ?_, ?_, ?_, ?_, ?_⟩
  · intro angle dim
    obtain ⟨t0, h0⟩ := intersection_param
      (corners dim ((gradientQuadrant angle + 2) % 4)) (0.5 * dim.1, 0.5 * dim.2)
      (Real.sin angle, -Real.cos angle)
    obtain ⟨t1, h1⟩ := intersection_param
      (corners dim (gradientQuadrant angle)) (0.5 * dim.1, 0.5 * dim.2)
      (Real.sin angle, -Real.cos angle)
    refine ⟨t0, t1, ?_, ?_, ?_⟩
    · rw [show (CalculateLinearGradientShape angle dim).p0 =
          IntersectionPointToLineNormal (corners dim ((gradientQuadrant angle + 2) % 4))
            (0.5 * dim.1, 0.5 * dim.2) (Real.sin angle, -Real.cos angle) from rfl, h0]
      simp only [Prod.mk.injEq]
      constructor <;> ring_nf
    · rw [show (CalculateLinearGradientShape angle dim).p1 =
          IntersectionPointToLineNormal (corners dim (gradientQuadrant angle))
            (0.5 * dim.1, 0.5 * dim.2) (Real.sin angle, -Real.cos angle) from rfl, h1]
      simp only [Prod.mk.injEq]
      constructor <;> ring_nf
    · show |dim.1 * Real.sin angle| + |(-dim.2) * (-Real.cos angle)| = _
      rw [neg_mul_neg]
  · show IntersectionPointToLineNormal (corners (100, 200) ((gradientQuadrant 0 + 2) % 4))
      (0.5 * 100, 0.5 * 200) (Real.sin 0, -Real.cos 0) = (50, 200)
    rw [gradientQuadrant_zero]
    simp only [corners, IntersectionPointToLineNormal, Real.sin_zero, Real.cos_zero]
    norm_num
  · show IntersectionPointToLineNormal (corners (100, 200) (gradientQuadrant 0))
      (0.5 * 100, 0.5 * 200) (Real.sin 0, -Real.cos 0) = (50, 0)
    rw [gradientQuadrant_zero]
    simp only [corners, IntersectionPointToLineNormal, Real.sin_zero, Real.cos_zero]
    norm_num
  · show |(100 : ℝ) * Real.sin 0| + |(-(200 : ℝ)) * (-Real.cos 0)| = 200
    simp [Real.sin_zero, Real.cos_zero]
  · show IntersectionPointToLineNormal
      (corners (100, 200) ((gradientQuadrant (Real.pi / 2) + 2) % 4))
      (0.5 * 100, 0.5 * 200) (Real.sin (Real.pi / 2), -Real.cos (Real.pi / 2)) = (0, 100)
    rw [gradientQuadrant_pi_div_two]
    simp only [corners, IntersectionPointToLineNormal, Real.sin_pi_div_two,
      Real.cos_pi_div_two]
    norm_num
  · show IntersectionPointToLineNormal (corners (100, 200) (gradientQuadrant (Real.pi / 2)))
      (0.5 * 100, 0.5 * 200) (Real.sin (Real.pi / 2), -Real.cos (Real.pi / 2)) = (100, 100)
    rw [gradientQuadrant_pi_div_two]
    simp only [corners, IntersectionPointToLineNormal, Real.sin_pi_div_two,
      Real.cos_pi_div_two]
    norm_num
  · show |(100 : ℝ) * Real.sin (Real.pi / 2)| + |(-(200 : ℝ)) * (-Real.cos (Real.pi / 2))| = 100
    simp [Real.sin_pi_div_two, Real.cos_pi_div_two]

/-- C9 (counterexample): the linear gradient decorator's soft-spacing
divisor is the raw axis length, with no guard before the division
`1 / gradient_shape.length`; on a zero-sized box the axis length is zero,
so `1 / axis-length` IS evaluated with a zero axis length. -/
theorem linear_soft_spacing_unguarded_counterexample :
    linearSoftSpacingDenominator 0 (0, 0) = 0 ∧
    linearSoftSpacing 0 (0, 0) = 1 / linearSoftSpacingDenominator 0 (0, 0) := by
  constructor
  · show |(0 : ℝ) * Real.sin 0| + |(-(0 : ℝ)) * (-Real.cos 0)| = 0
    simp
  · rfl

/-- C9 (amended): the radial gradient decorator's soft-spacing divisor
`min(radius.x, radius.y)` is guarded — every radius component is clamped
to at least 1, so the divisor is at least 1 and never zero; the linear
gradient decorator's soft-spacing divisor is the unguarded axis length,
which equals zero on a zero-sized box. -/
theorem soft_spacing_divisor_guards :
    (∀ (resolve : NumericValueR → ℝ → ℝ) (shape : RShape) (size : RGSize)
      (position : RGPosition) (dimensions : Vec2r),
      1 ≤ radialSoftSpacingDenominator resolve shape size position dimensions) ∧
    linearSoftSpacingDenominator 0 (0, 0) = 0 := by
  constructor
  · intro resolve shape size position dimensions
    exact le_min (le_max_right _ _) (le_max_right _ _)
  · show |(0 : ℝ) * Real.sin 0| + |(-(0 : ℝ)) * (-Real.cos 0)| = 0
    simp

/-- The position units relevant to colour-stop resolution: `LENGTH`-family
units, `PERCENT`, `NUMBER`, and everything else (`auto`). -/
inductive CUnit : Type
  | number
  | percent
  | length
  | auto
deriving DecidableEq, Repr

/-- A `NumericValue` position (float modelled by an exact rational). -/
structure NumericValueQ where
  number : Rat
  unit : CUnit
deriving DecidableEq, Repr

/-- `ColorStop { Colourb color; NumericValue position; }`. -/
structure ColorStop where
  color : Colourb
  position : NumericValueQ
deriving DecidableEq, Repr

instance : Inhabited ColorStop := ⟨⟨default, ⟨0, CUnit.number⟩⟩⟩

/-- `nudge_stop` and the spacing pass write `stop.position.number` only,
keeping the unit. -/
def withPos (s : ColorStop) (p : Rat) : ColorStop :=
  { s with position := ⟨p, s.position.unit⟩ }

/-- Assignment of a whole `NumericValue(p, Unit::NUMBER)`. -/
def withPosNum (s : ColorStop) (p : Rat) : ColorStop :=
  { s with position := ⟨p, CUnit.number⟩ }

/-- Resolution step 1 (`ResolveColorStops` lines 57–68): lengths resolve
through the element (environment function `resolveLength`) divided by the
gradient line length; percentages multiply by 0.01. -/
def resolveStopUnit (resolveLength : Rat → Rat) (gradient_line_length : Rat)
    (s : ColorStop) : ColorStop :=
  if s.position.unit = CUnit.length then
    { s with position := ⟨resolveLength s.position.number / gradient_line_length, CUnit.number⟩ }
  else if s.position.unit = CUnit.percent then
    { s with position := ⟨s.position.number * (1 / 100), CUnit.number⟩ }
  else s

/-- `resolve_edge_stop`: a first/last stop without a definite number gets
the default (0 for the first stop, 1 for the last). -/
def resolveEdge (auto_to_number : Rat) (s : ColorStop) : ColorStop :=
  if s.position.unit ≠ CUnit.number then { s with position := ⟨auto_to_number, CUnit.number⟩ }
  else s

/-- Apply a function to the last element of a list. -/
def modifyLast {α : Type} (f : α → α) : List α → List α
  | [] => []
  | [s] => [f s]
  | s :: t :: rest => s :: modifyLast f (t :: rest)

/-- Resolution step 2 (`ResolveColorStops` lines 71–76): default the first
stop to 0, then the last stop to 1 (a single stop receives the 0 default
first, so the 1 default then sees a definite number and does nothing). -/
def passB : List ColorStop → List ColorStop
  | [] => []
  | [s] => [resolveEdge 1 (resolveEdge 0 s)]
  | s :: t :: rest => resolveEdge 0 s :: modifyLast (resolveEdge 1) (t :: rest)

/-- The auto-run fill (`ResolveColorStops` lines 109–114): the `j`-th of
`num_auto_stops` pending auto stops is placed at
`t0 + (t1 - t0) * (j + 1) / (num_auto_stops + 1)` and then nudged against
the running `prev_position` (which is updated).  Returns the filled stops
and the final `prev_position`.  In the source the pending auto stops keep
their slots in the vector and only their positions are overwritten; here
they are carried as the list being filled. -/
def fillRun (t0 t1 : Rat) (num : Nat) : Nat → Rat → List ColorStop → List ColorStop × Rat
  | _, prev, [] => ([], prev)
  | j, prev, s :: rest =>
    let interp := t0 + (t1 - t0) * ((j + 1 : Rat) / (num + 1))
    let p := max interp prev
    let r := fillRun t0 t1 num (j + 1) p rest
    (withPosNum s p :: r.1, r.2)

/-- Resolution step 3 (`ResolveColorStops` lines 79–119), processing the
stops after the first.  `prev` is the mutable `prev_position` of
`nudge_stop` (always the position of the last committed stop) and
`pending` the run of consecutive auto stops since the last definite stop
(`auto_begin_i` marks its start in the source; only its length and colour
slots are used, as the positions are overwritten by the fill).  A definite
stop with no pending autos is nudged; a definite stop closing a run is
first nudged without updating `prev` (giving `t1`), the run is evenly
filled between `t0 = prev` and `t1` with nudges, and the closing stop is
nudged again with update.  A trailing run of autos (impossible after step
2, which makes the last stop definite) is left untouched. -/
def passCGo (prev : Rat) (pending : List ColorStop) : List ColorStop → List ColorStop
  | [] => pending
  | s :: rest =>
    if s.position.unit = CUnit.number then
      match pending with
      | [] =>
        let p := max s.position.number prev
        withPos s p :: passCGo p [] rest
      | _ :: _ =>
        let t1 := max s.position.number prev
        let res := fillRun prev t1 pending.length 0 prev pending
        let pfinal := max t1 res.2
        res.1 ++ (withPos (withPos s t1) pfinal :: passCGo pfinal [] rest)
    else
      passCGo prev (pending ++ [s]) rest

/-- Step 3 entry: `prev_position` starts at the first stop's position and
the loop runs from the second stop on. -/
def passC : List ColorStop → List ColorStop
  | [] => []
  | s0 :: rest => s0 :: passCGo s0.position.number [] rest

/-- One step of the anti-aliasing spacing pass (`ResolveColorStops` lines
122–136) on the stop `s1` with predecessor position `p0` and successor
`s2`: if the gap to the predecessor is below `soft_spacing`, move `s1` to
the midpoint of its neighbours (when the whole span is tight) or to
`p0 + soft_spacing`. -/
def passDGo (soft_spacing : Rat) (p0 : Rat) : List ColorStop → List ColorStop
  | s1 :: s2 :: rest =>
    let p1 := s1.position.number
    let p2 := s2.position.number
    let s1n :=
      if p1 - p0 < soft_spacing then
        if p2 - p0 < 2 * soft_spacing then withPos s1 ((p2 + p0) / 2)
        else withPos s1 (p0 + soft_spacing)
      else s1
    s1n :: passDGo soft_spacing s1n.position.number (s2 :: rest)
  | other => other

/-- Step 4: the spacing pass runs over interior stops only (`i` from 1 to
`num_stops - 2`), reading the already-moved predecessor and the not yet
moved successor. -/
def passD (soft_spacing : Rat) : List ColorStop → List ColorStop
  | [] => []
  | s0 :: rest => s0 :: passDGo soft_spacing s0.position.number rest

/-- `ResolveColorStops(element, gradient_line_length, soft_spacing,
unresolved_stops)`. -/
def ResolveColorStops (resolveLength : Rat → Rat) (gradient_line_length soft_spacing : Rat)
    (unresolved_stops : List ColorStop) : List ColorStop :=
  passD soft_spacing
    (passC (passB (unresolved_stops.map (resolveStopUnit resolveLength gradient_line_length))))

/-- The resolved position of a stop. -/
def posOf (s : ColorStop) : Rat := s.position.number

/-- A stop with a definite (number-unit) position. -/
def isNum (s : ColorStop) : Prop := s.position.unit = CUnit.number

/-- The last stop of a list (the default stop for the empty list). -/
def lastStop : List ColorStop → ColorStop
  | [] => default
  | [s] => s
  | _ :: t :: rest => lastStop (t :: rest)

theorem length_modifyLast {α : Type} (f : α → α) (l : List α) :
    (modifyLast f l).length = l.length := by
  induction l with
  | nil => rfl
  | cons a t ih =>
    cases t with
    | nil => rfl
    | cons b rest => simpa [modifyLast] using ih

theorem length_passB (l : List ColorStop) : (passB l).length = l.length := by
  cases l with
  | nil => rfl
  | cons a t =>
    cases t with
    | nil => rfl
    | cons b rest => simp [passB, length_modifyLast]

theorem fillRun_length (t0 t1 : Rat) (num : Nat) (pending : List ColorStop) :
    ∀ (j : Nat) (prev : Rat), (fillRun t0 t1 num j prev pending).1.length = pending.length := by
  induction pending with
  | nil => intro j prev; rfl
  | cons s rest ih => intro j prev; simp [fillRun, ih]

theorem fillRun_prev_le (t0 t1 : Rat) (num : Nat) (pending : List ColorStop) :
    ∀ (j : Nat) (prev : Rat), prev ≤ (fillRun t0 t1 num j prev pending).2 := by
  induction pending with
  | nil => intro j prev; exact le_rfl
  | cons s rest ih =>
    intro j prev
    calc prev ≤ max (t0 + (t1 - t0) * ((j + 1 : Rat) / (num + 1))) prev := le_max_right _ _
    _ ≤ _ := ih (j + 1) _

theorem fillRun_mem (t0 t1 : Rat) (num : Nat) (pending : List ColorStop) :
    ∀ (j : Nat) (prev : Rat), ∀ x ∈ (fillRun t0 t1 num j prev pending).1,
      prev ≤ posOf x ∧ posOf x ≤ (fillRun t0 t1 num j prev pending).2 ∧ isNum x := by
  induction pending with
  | nil => intro j prev x hx; exact absurd hx (by simp [fillRun])
  | cons s rest ih =>
    intro j prev x hx
    simp only [fillRun, List.mem_cons] at hx
    rcases hx with rfl | hx
    · refine ⟨le_max_right _ _, ?_, rfl⟩
      exact (fillRun_prev_le t0 t1 num rest (j + 1) _)
    · obtain ⟨h1, h2, h3⟩ := ih (j + 1) _ x hx
      exact ⟨le_trans (le_max_right _ _) h1, h2, h3⟩

theorem fillRun_chain (t0 t1 : Rat) (num : Nat) (pending : List ColorStop) :
    ∀ (j : Nat) (prev : Rat),
      List.Chain' (fun a b => posOf a ≤ posOf b) (fillRun t0 t1 num j prev pending).1 := by
  induction pending with
  | nil => intro j prev; simp [fillRun]
  | cons s rest ih =>
    intro j prev
    simp only [fillRun]
    refine List.chain'_cons'.mpr ⟨?_, ih (j + 1) _⟩
    intro y hy
    have hmem := fillRun_mem t0 t1 num rest (j + 1)
      (max (t0 + (t1 - t0) * ((j + 1 : Rat) / (num + 1))) prev) y
    have : y ∈ (fillRun t0 t1 num (j + 1)
        (max (t0 + (t1 - t0) * ((j + 1 : Rat) / (num + 1))) prev) rest).1 :=
      List.mem_of_mem_head? hy
    exact (hmem this).1

theorem fillRun_bound (t0 t1 : Rat) (num : Nat) (pending : List ColorStop) (M : Rat)
    (ht0 : t0 ≤ M) (ht1 : t1 ≤ M) :
    ∀ (j : Nat) (prev : Rat), j + pending.length ≤ num → prev ≤ M →
      (fillRun t0 t1 num j prev pending).2 ≤ M ∧
      ∀ x ∈ (fillRun t0 t1 num j prev pending).1, posOf x ≤ M := by
  induction pending with
  | nil => intro j prev _ hprev; exact ⟨hprev, by simp [fillRun]⟩
  | cons s rest ih =>
    intro j prev hj hprev
    have hfrac0 : (0 : Rat) ≤ (j + 1 : Rat) / (num + 1) := by positivity
    have hfrac1 : ((j + 1 : Rat) / (num + 1)) ≤ 1 := by
      rw [div_le_one (by positivity)]
      have : (j : Rat) + 1 ≤ (num : Rat) + 1 := by
        have : (j : Rat) ≤ (num : Rat) := by
          have : j ≤ num := by omega
          exact_mod_cast this
        linarith
      exact this
    have hinterp : t0 + (t1 - t0) * ((j + 1 : Rat) / (num + 1)) ≤ M := by
      rcases le_total t0 t1 with h | h
      · calc t0 + (t1 - t0) * ((j + 1 : Rat) / (num + 1))
            ≤ t0 + (t1 - t0) * 1 := by
              have := mul_le_mul_of_nonneg_left hfrac1 (by linarith : (0 : Rat) ≤ t1 - t0)
              linarith
        _ = t1 := by ring
        _ ≤ M := ht1
      · calc t0 + (t1 - t0) * ((j + 1 : Rat) / (num + 1))
            ≤ t0 + 0 := by
              have := mul_nonpos_of_nonpos_of_nonneg (by linarith : t1 - t0 ≤ 0) hfrac0
              linarith
        _ ≤ M := by linarith
    have hmax : max (t0 + (t1 - t0) * ((j + 1 : Rat) / (num + 1))) prev ≤ M :=
      max_le hinterp hprev
    obtain ⟨h2, h1⟩ := ih (j + 1) _
      (by simp only [List.length_cons] at hj; omega) hmax
    refine ⟨h2, ?_⟩
    intro x hx
    simp only [fillRun, List.mem_cons] at hx
    rcases hx with rfl | hx
    · exact hmax
    · exact h1 x hx

/-- Pointwise order of stop positions. -/
def stopLE (a b : ColorStop) : Prop := posOf a ≤ posOf b

theorem posOf_withPos (s : ColorStop) (p : Rat) : posOf (withPos s p) = p := rfl

theorem posOf_withPosNum (s : ColorStop) (p : Rat) : posOf (withPosNum s p) = p := rfl

theorem isNum_withPos (s : ColorStop) (p : Rat) : isNum (withPos s p) ↔ isNum s :=
  Iff.rfl

theorem isNum_withPosNum (s : ColorStop) (p : Rat) : isNum (withPosNum s p) := rfl

theorem lastStop_cons (s : ColorStop) (rest : List ColorStop) (h : rest ≠ []) :
    lastStop (s :: rest) = lastStop rest := by
  cases rest with
  | nil => exact absurd rfl h
  | cons t r2 => rfl

theorem lastStop_append (l1 l2 : List ColorStop) (h : l2 ≠ []) :
    lastStop (l1 ++ l2) = lastStop l2 := by
  induction l1 with
  | nil => rfl
  | cons a t ih =>
    rw [List.cons_append, lastStop_cons a (t ++ l2) (by simp [h]), ih]

theorem passCGo_length (r : List ColorStop) :
    ∀ (prev : Rat) (pending : List ColorStop),
      (passCGo prev pending r).length = pending.length + r.length := by
  induction r with
  | nil => intro prev pending; simp [passCGo]
  | cons s rest ih =>
    intro prev pending
    simp only [passCGo]
    by_cases hn : s.position.unit = CUnit.number
    · simp only [if_pos hn]
      cases pending with
      | nil =>
        simp only [List.length_cons, ih, List.length_nil]
        omega
      | cons q qs =>
        simp only [List.length_append, List.length_cons, fillRun_length, ih,
          List.length_nil]
        omega
    · simp only [if_neg hn, ih, List.length_append, List.length_cons,
        List.length_nil]
      omega

/-- The master invariant of the nudging pass: the emitted list is a chain
of positions at least `prev`, all definite, bounded by any `M` dominating
`prev` and the definite inputs, and its last stop's position dominates the
last input stop's position.  The hypotheses record that the remaining
input ends with a definite stop (guaranteed by the edge-default pass) and
that pending auto stops exist only while input remains. -/
theorem passCGo_spec (r : List ColorStop) :
    ∀ (prev : Rat) (pending : List ColorStop),
      (r ≠ [] → isNum (lastStop r)) →
      (r = [] → pending = []) →
      List.Chain' stopLE (passCGo prev pending r) ∧
      (∀ x ∈ passCGo prev pending r, prev ≤ posOf x ∧ isNum x) ∧
      (∀ M, prev ≤ M → (∀ x ∈ r, isNum x → posOf x ≤ M) →
        ∀ x ∈ passCGo prev pending r, posOf x ≤ M) ∧
      (r ≠ [] → passCGo prev pending r ≠ [] ∧
        posOf (lastStop r) ≤ posOf (lastStop (passCGo prev pending r))) := by
  induction r with
  | nil =>
    intro prev pending _ hemp
    rw [hemp rfl]
    refine ⟨by simp [passCGo], by simp [passCGo], by simp [passCGo], ?_⟩
    intro h
    exact absurd rfl h
  | cons s rest ih =>
    intro prev pending hlast hemp
    by_cases hn : s.position.unit = CUnit.number
    · cases pending with
      | nil =>
        -- a definite stop with no pending autos: plain nudge
        have hlast2 : rest ≠ [] → isNum (lastStop rest) := by
          intro hne
          have := hlast (by simp)
          rwa [lastStop_cons s rest hne] at this
        obtain ⟨ch2, mem2, bound2, last2⟩ :=
          ih (max s.position.number prev) [] hlast2 (fun _ => rfl)
        have hout : passCGo prev [] (s :: rest) =
            withPos s (max s.position.number prev) ::
              passCGo (max s.position.number prev) [] rest := by
          simp [passCGo, hn]
        rw [hout]
        refine ⟨?_, ?_, ?_, ?_⟩
        · refine List.chain'_cons'.mpr ⟨?_, ch2⟩
          intro y hy
          exact (mem2 y (List.mem_of_mem_head? hy)).1
        · intro x hx
          rcases List.mem_cons.mp hx with rfl | hx
          · exact ⟨le_max_right _ _, hn⟩
          · obtain ⟨h1, h2⟩ := mem2 x hx
            exact ⟨le_trans (le_max_right _ _) h1, h2⟩
        · intro M hM hr x hx
          have hsM : s.position.number ≤ M := hr s (by simp) hn
          have hpM : max s.position.number prev ≤ M := max_le hsM hM
          rcases List.mem_cons.mp hx with rfl | hx
          · exact hpM
          · exact bound2 M hpM (fun y hy h => hr y (by simp [hy]) h) x hx
        · intro _
          refine ⟨by simp, ?_⟩
          by_cases hrest : rest = []
          · subst hrest
            simp only [passCGo, lastStop, posOf_withPos]
            exact le_max_left s.position.number prev
          · obtain ⟨hne2, hle2⟩ := last2 hrest
            rw [lastStop_cons s rest hrest,
              lastStop_cons _ (passCGo (max s.position.number prev) [] rest) hne2]
            exact hle2
      | cons q qs =>
        -- a definite stop closing an auto run: fill the run, then nudge
        have hlast2 : rest ≠ [] → isNum (lastStop rest) := by
          intro hne
          have := hlast (by simp)
          rwa [lastStop_cons s rest hne] at this
        set t1 := max s.position.number prev with ht1def
        set res := fillRun prev t1 (q :: qs).length 0 prev (q :: qs) with hresdef
        set pfinal := max t1 res.2 with hpfdef
        obtain ⟨ch2, mem2, bound2, last2⟩ := ih pfinal [] hlast2 (fun _ => rfl)
        have hout : passCGo prev (q :: qs) (s :: rest) =
            res.1 ++ (withPos (withPos s t1) pfinal :: passCGo pfinal [] rest) := by
          simp [passCGo, hn, ht1def, hresdef, hpfdef]
        rw [hout]
        have hfillmem := fillRun_mem prev t1 (q :: qs).length (q :: qs) 0 prev
        have hprevle : prev ≤ res.2 := fillRun_prev_le prev t1 (q :: qs).length (q :: qs) 0 prev
        have hprevpf : prev ≤ pfinal := le_trans (le_max_right _ _) (le_max_left _ _)
        refine ⟨?_, ?_, ?_, ?_⟩
        · refine List.Chain'.append (fillRun_chain prev t1 (q :: qs).length (q :: qs) 0 prev) ?_ ?_
          · refine List.chain'_cons'.mpr ⟨?_, ch2⟩
            intro y hy
            exact (mem2 y (List.mem_of_mem_head? hy)).1
          · intro x hx y hy
            have hx2 : x ∈ res.1 := List.mem_of_mem_getLast? hx
            have hy2 : y = withPos (withPos s t1) pfinal := by
              simp at hy
              exact hy.symm
            subst hy2
            show posOf x ≤ pfinal
            exact le_trans (hfillmem x hx2).2.1 (le_max_right _ _)
        · intro x hx
          rcases List.mem_append.mp hx with hx | hx
          · obtain ⟨h1, _, h3⟩ := hfillmem x hx
            exact ⟨h1, h3⟩
          · rcases List.mem_cons.mp hx with rfl | hx
            · exact ⟨hprevpf, hn⟩
            · obtain ⟨h1, h2⟩ := mem2 x hx
              exact ⟨le_trans hprevpf h1, h2⟩
        · intro M hM hr x hx
          have hsM : s.position.number ≤ M := hr s (by simp) hn
          have ht1M : t1 ≤ M := max_le hsM hM
          obtain ⟨hres2M, hres1M⟩ := fillRun_bound prev t1 (q :: qs).length (q :: qs) M hM ht1M
            0 prev (by simp) hM
          have hpfM : pfinal ≤ M := max_le ht1M hres2M
          rcases List.mem_append.mp hx with hx | hx
          · exact hres1M x hx
          · rcases List.mem_cons.mp hx with rfl | hx
            · exact hpfM
            · exact bound2 M hpfM (fun y hy h => hr y (by simp [hy]) h) x hx
        · intro _
          have houtne : res.1 ++ (withPos (withPos s t1) pfinal :: passCGo pfinal [] rest) ≠ [] := by
            simp
          refine ⟨houtne, ?_⟩
          by_cases hrest : rest = []
          · subst hrest
            rw [lastStop_append res.1 _ (by simp)]
            simp [passCGo, lastStop, posOf_withPos]
            calc s.position.number ≤ t1 := le_max_left _ _
            _ ≤ pfinal := le_max_left _ _
          · obtain ⟨hne2, hle2⟩ := last2 hrest
            rw [lastStop_cons s rest hrest, lastStop_append res.1 _ (by simp),
              lastStop_cons _ (passCGo pfinal [] rest) hne2]
            exact hle2
    · -- an auto stop: mark it pending
      have hrestne : rest ≠ [] := by
        intro hrest
        subst hrest
        have := hlast (by simp)
        simp [lastStop, isNum] at this
        exact hn this
      have hlast2 : rest ≠ [] → isNum (lastStop rest) := by
        intro hne
        have := hlast (by simp)
        rwa [lastStop_cons s rest hne] at this
      obtain ⟨ch2, mem2, bound2, last2⟩ := ih prev (pending ++ [s]) hlast2
        (fun h => absurd h hrestne)
      have hout : passCGo prev pending (s :: rest) = passCGo prev (pending ++ [s]) rest := by
        simp [passCGo, hn]
      rw [hout]
      refine ⟨ch2, mem2, ?_, ?_⟩
      · intro M hM hr x hx
        exact bound2 M hM (fun y hy h => hr y (by simp [hy]) h) x hx
      · intro _
        obtain ⟨hne2, hle2⟩ := last2 hrestne
        rw [lastStop_cons s rest hrestne]
        exact ⟨hne2, hle2⟩

theorem passDGo_spec (ss : Rat) (l : List ColorStop) :
    ∀ (p0 : Rat), (l ≠ [] → p0 ≤ posOf l.headI) → List.Chain' stopLE l →
      List.Chain' stopLE (passDGo ss p0 l) ∧
      (l ≠ [] → passDGo ss p0 l ≠ [] ∧ p0 ≤ posOf (passDGo ss p0 l).headI) ∧
      lastStop (passDGo ss p0 l) = lastStop l ∧
      ((∀ x ∈ l, isNum x) → ∀ x ∈ passDGo ss p0 l, isNum x) ∧
      (passDGo ss p0 l).length = l.length := by
  induction l with
  | nil =>
    intro p0 _ _
    exact ⟨by simp [passDGo], fun h => absurd rfl h, rfl, by simp [passDGo], rfl⟩
  | cons s1 t ih =>
    intro p0 hhead hchain
    cases t with
    | nil =>
      refine ⟨by simp [passDGo], ?_, rfl, by simp [passDGo], rfl⟩
      intro _
      exact ⟨by simp [passDGo], hhead (by simp)⟩
    | cons s2 rest =>
      have hp01 : p0 ≤ posOf s1 := hhead (by simp)
      have h12 : posOf s1 ≤ posOf s2 := (List.chain'_cons.mp hchain).1
      have hchain2 : List.Chain' stopLE (s2 :: rest) := (List.chain'_cons.mp hchain).2
      set s1n := if posOf s1 - p0 < ss then
          (if posOf s2 - p0 < 2 * ss then withPos s1 ((posOf s2 + p0) / 2)
           else withPos s1 (p0 + ss))
        else s1 with hs1ndef
      have hbounds : p0 ≤ posOf s1n ∧ posOf s1n ≤ posOf s2 := by
        rw [hs1ndef]
        by_cases hc1 : posOf s1 - p0 < ss
        · have hsspos : 0 < ss := by linarith
          by_cases hc2 : posOf s2 - p0 < 2 * ss
          · simp only [if_pos hc1, if_pos hc2, posOf_withPos]
            constructor <;> linarith
          · simp only [if_pos hc1, if_neg hc2, posOf_withPos]
            constructor <;> linarith
        · simp only [if_neg hc1]
          exact ⟨hp01, h12⟩
      have hunit : s1n.position.unit = s1.position.unit := by
        rw [hs1ndef]
        by_cases hc1 : posOf s1 - p0 < ss
        · by_cases hc2 : posOf s2 - p0 < 2 * ss
          · simp [if_pos hc1, if_pos hc2, withPos]
          · simp [if_pos hc1, if_neg hc2, withPos]
        · simp [if_neg hc1]
      obtain ⟨ch2, hd2, lst2, num2, len2⟩ := ih (posOf s1n)
        (fun _ => hbounds.2) hchain2
      have hout : passDGo ss p0 (s1 :: s2 :: rest) =
          s1n :: passDGo ss (posOf s1n) (s2 :: rest) := by
        rw [hs1ndef]
        simp only [passDGo, posOf]
      rw [hout]
      obtain ⟨hne2, hh2⟩ := hd2 (by simp)
      refine ⟨?_, ?_, ?_, ?_, ?_⟩
      · refine List.chain'_cons'.mpr ⟨?_, ch2⟩
        intro y hy
        have : y = (passDGo ss (posOf s1n) (s2 :: rest)).headI := by
          cases hout2 : passDGo ss (posOf s1n) (s2 :: rest) with
          | nil => exact absurd hout2 hne2
          | cons a t2 =>
            rw [hout2] at hy
            simp at hy
            simp [hy, hout2]
        rw [this]
        exact hh2
      · intro _
        exact ⟨by simp, hbounds.1⟩
      · rw [lastStop_cons _ _ hne2, lst2,
          lastStop_cons s1 (s2 :: rest) (by simp)]
      · intro hall x hx
        rcases List.mem_cons.mp hx with rfl | hx
        · have h1 : isNum s1 := hall s1 (by simp)
          simpa [isNum, hunit] using h1
        · exact num2 (fun y hy => hall y (by simp [hy])) x hx
      · simp [len2]

theorem passD_spec (ss : Rat) (l : List ColorStop) (hchain : List.Chain' stopLE l) :
    List.Chain' stopLE (passD ss l) ∧
    (passD ss l).headI = l.headI ∧
    lastStop (passD ss l) = lastStop l ∧
    ((∀ x ∈ l, isNum x) → ∀ x ∈ passD ss l, isNum x) ∧
    (passD ss l).length = l.length := by
  cases l with
  | nil => exact ⟨by simp [passD], rfl, rfl, by simp [passD], rfl⟩
  | cons s0 rest =>
    have hchain2 : List.Chain' stopLE rest := hchain.tail
    have hhead : rest ≠ [] → posOf s0 ≤ posOf rest.headI := by
      intro hne
      cases rest with
      | nil => exact absurd rfl hne
      | cons a t => exact (List.chain'_cons.mp hchain).1
    obtain ⟨ch2, hd2, lst2, num2, len2⟩ := passDGo_spec ss rest (posOf s0) hhead hchain2
    have hout : passD ss (s0 :: rest) = s0 :: passDGo ss (posOf s0) rest := rfl
    rw [hout]
    refine ⟨?_, rfl, ?_, ?_, ?_⟩
    · refine List.chain'_cons'.mpr ⟨?_, ch2⟩
      intro y hy
      have hne : rest ≠ [] := by
        intro h
        subst h
        simp [passDGo] at hy
      obtain ⟨hne2, hh2⟩ := hd2 hne
      have : y = (passDGo ss (posOf s0) rest).headI := by
        cases hout2 : passDGo ss (posOf s0) rest with
        | nil => exact absurd hout2 hne2
        | cons a t2 =>
          rw [hout2] at hy
          simp at hy
          simp [hy, hout2]
      rw [this]
      exact hh2
    · by_cases hne : rest = []
      · subst hne
        rfl
      · have hne2 := (hd2 hne).1
        rw [lastStop_cons _ _ hne2, lst2, lastStop_cons s0 rest hne]
    · intro hall x hx
      rcases List.mem_cons.mp hx with rfl | hx
      · exact hall _ (by simp)
      · exact num2 (fun y hy => hall y (by simp [hy])) x hx
    · simp [len2]

theorem isNum_resolveEdge (v : Rat) (s : ColorStop) : isNum (resolveEdge v s) := by
  by_cases h : s.position.unit = CUnit.number
  · simp [resolveEdge, h, isNum]
  · simp [resolveEdge, h, isNum]

theorem resolveEdge_bound (v : Rat) (s : ColorStop) (hv : v ≤ 1)
    (hs : isNum s → posOf s ≤ 1) : posOf (resolveEdge v s) ≤ 1 := by
  by_cases h : s.position.unit = CUnit.number
  · simpa [resolveEdge, h] using hs h
  · simpa [resolveEdge, h, posOf] using hv

theorem mem_modifyLast {α : Type} (f : α → α) (l : List α) :
    ∀ x ∈ modifyLast f l, x ∈ l ∨ ∃ y ∈ l, x = f y := by
  induction l with
  | nil => intro x hx; exact absurd hx (by simp [modifyLast])
  | cons a t ih =>
    intro x hx
    cases t with
    | nil =>
      simp only [modifyLast, List.mem_singleton] at hx
      exact Or.inr ⟨a, by simp, hx⟩
    | cons b rest =>
      simp only [modifyLast, List.mem_cons] at hx
      rcases hx with rfl | hx
      · exact Or.inl (by simp)
      · rcases ih x hx with h | ⟨y, hy, hxy⟩
        · exact Or.inl (by simp [h])
        · exact Or.inr ⟨y, by simp [hy], hxy⟩

theorem lastStop_modifyLast (f : ColorStop → ColorStop) (l : List ColorStop)
    (h : l ≠ []) : lastStop (modifyLast f l) = f (lastStop l) := by
  induction l with
  | nil => exact absurd rfl h
  | cons a t ih =>
    cases t with
    | nil => rfl
    | cons b rest =>
      have : modifyLast f (a :: b :: rest) = a :: modifyLast f (b :: rest) := rfl
      rw [this, lastStop_cons a _ (by
          have := length_modifyLast f (b :: rest)
          intro hcon
          rw [hcon] at this
          simp at this),
        ih (by simp), lastStop_cons a (b :: rest) (by simp)]

theorem passB_bound (l : List ColorStop)
    (h : ∀ x ∈ l, isNum x → posOf x ≤ 1) :
    ∀ x ∈ passB l, posOf x ≤ 1 ∨ ¬isNum x := by
  intro x hx
  cases l with
  | nil => exact absurd hx (by simp [passB])
  | cons a t =>
    cases t with
    | nil =>
      simp only [passB, List.mem_singleton] at hx
      subst hx
      exact Or.inl (resolveEdge_bound 1 _ le_rfl
        (fun _ => resolveEdge_bound 0 a (by norm_num) (fun hn => h a (by simp) hn)))
    | cons b rest =>
      simp only [passB, List.mem_cons] at hx
      rcases hx with rfl | hx
      · exact Or.inl (resolveEdge_bound 0 a (by norm_num) (fun hn => h a (by simp) hn))
      · rcases mem_modifyLast (resolveEdge 1) (b :: rest) x hx with hmem | ⟨y, hy, rfl⟩
        · by_cases hn : isNum x
          · exact Or.inl (h x (by simp [hmem]) hn)
          · exact Or.inr hn
        · exact Or.inl (resolveEdge_bound 1 y le_rfl (fun hn => h y (by simp [hy]) hn))

theorem passB_lastStop_isNum (l : List ColorStop) (h : l ≠ []) :
    isNum (lastStop (passB l)) := by
  cases l with
  | nil => exact absurd rfl h
  | cons a t =>
    cases t with
    | nil => exact isNum_resolveEdge 1 _
    | cons b rest =>
      have hpb : passB (a :: b :: rest) =
          resolveEdge 0 a :: modifyLast (resolveEdge 1) (b :: rest) := rfl
      rw [hpb, lastStop_cons _ _ (by
          have := length_modifyLast (resolveEdge 1) (b :: rest)
          intro hcon
          rw [hcon] at this
          simp at this),
        lastStop_modifyLast _ _ (by simp)]
      exact isNum_resolveEdge 1 _

theorem passB_headI_isNum (l : List ColorStop) (h : l ≠ []) :
    isNum ((passB l).headI) := by
  cases l with
  | nil => exact absurd rfl h
  | cons a t =>
    cases t with
    | nil => exact isNum_resolveEdge 1 _
    | cons b rest => exact isNum_resolveEdge 0 a

theorem passB_headI_auto (l : List ColorStop) (h : l ≠ [])
    (hauto : ¬isNum l.headI) : posOf ((passB l).headI) = 0 := by
  cases l with
  | nil => exact absurd rfl h
  | cons a t =>
    have ha : ¬a.position.unit = CUnit.number := hauto
    cases t with
    | nil =>
      show posOf (resolveEdge 1 (resolveEdge 0 a)) = 0
      simp [resolveEdge, ha, posOf, isNum]
    | cons b rest =>
      show posOf (resolveEdge 0 a) = 0
      simp [resolveEdge, ha, posOf]

theorem passB_ne_nil (l : List ColorStop) (h : l ≠ []) : passB l ≠ [] := by
  intro hcon
  have := length_passB l
  rw [hcon] at this
  cases l with
  | nil => exact h rfl
  | cons a t => simp at this

theorem headI_mem {α : Type} [Inhabited α] (l : List α) (h : l ≠ []) : l.headI ∈ l := by
  cases l with
  | nil => exact absurd rfl h
  | cons a t => simp

theorem lastStop_mem (l : List ColorStop) (h : l ≠ []) : lastStop l ∈ l := by
  induction l with
  | nil => exact absurd rfl h
  | cons a t ih =>
    cases t with
    | nil => simp [lastStop]
    | cons b rest =>
      rw [lastStop_cons a (b :: rest) (by simp)]
      exact List.mem_cons_of_mem a (ih (by simp))

/-- Assembled facts about the nudging pass. -/
theorem passC_spec (B : List ColorStop) (hne : B ≠ []) (hlast : isNum (lastStop B))
    (hhead : isNum B.headI) :
    List.Chain' stopLE (passC B) ∧
    (∀ x ∈ passC B, isNum x) ∧
    (passC B).headI = B.headI ∧
    (∀ M, (∀ x ∈ B, isNum x → posOf x ≤ M) → ∀ x ∈ passC B, posOf x ≤ M) ∧
    (passC B ≠ [] ∧ posOf (lastStop B) ≤ posOf (lastStop (passC B))) ∧
    (passC B).length = B.length := by
  cases B with
  | nil => exact absurd rfl hne
  | cons s0 rest =>
    have hlast2 : rest ≠ [] → isNum (lastStop rest) := by
      intro hne2
      rwa [lastStop_cons s0 rest hne2] at hlast
    obtain ⟨ch2, mem2, bound2, last2⟩ := passCGo_spec rest s0.position.number []
      hlast2 (fun _ => rfl)
    have hout : passC (s0 :: rest) = s0 :: passCGo s0.position.number [] rest := rfl
    rw [hout]
    refine ⟨?_, ?_, rfl, ?_, ?_, ?_⟩
    · refine List.chain'_cons'.mpr ⟨?_, ch2⟩
      intro y hy
      exact (mem2 y (List.mem_of_mem_head? hy)).1
    · intro x hx
      rcases List.mem_cons.mp hx with rfl | hx
      · exact hhead
      · exact (mem2 x hx).2
    · intro M hM x hx
      have h0M : s0.position.number ≤ M := hM s0 (by simp) hhead
      rcases List.mem_cons.mp hx with rfl | hx
      · exact h0M
      · exact bound2 M h0M (fun y hy h => hM y (by simp [hy]) h) x hx
    · refine ⟨by simp, ?_⟩
      by_cases hrest : rest = []
      · subst hrest
        exact le_rfl
      · obtain ⟨hne2, hle2⟩ := last2 hrest
        rw [lastStop_cons s0 rest hrest, lastStop_cons s0 _ hne2]
        exact hle2
    · simp [passCGo_length]

theorem lastStop_map (f : ColorStop → ColorStop) (l : List ColorStop) (h : l ≠ []) :
    lastStop (l.map f) = f (lastStop l) := by
  induction l with
  | nil => exact absurd rfl h
  | cons a t ih =>
    cases t with
    | nil => rfl
    | cons b rest =>
      rw [List.map_cons, lastStop_cons (f a) _ (by simp),
        lastStop_cons a (b :: rest) (by simp)]
      exact ih (by simp)

theorem headI_map (f : ColorStop → ColorStop) (l : List ColorStop) (h : l ≠ []) :
    (l.map f).headI = f l.headI := by
  cases l with
  | nil => exact absurd rfl h
  | cons a t => rfl

theorem resolveStopUnit_auto (resolveLength : Rat → Rat) (L : Rat) (s : ColorStop)
    (h : s.position.unit = CUnit.auto) : resolveStopUnit resolveLength L s = s := by
  simp [resolveStopUnit, h]

theorem passB_lastStop_two (l : List ColorStop) (h : 2 ≤ l.length) :
    lastStop (passB l) = resolveEdge 1 (lastStop l) := by
  cases l with
  | nil => simp at h
  | cons a t =>
    cases t with
    | nil => simp at h
    | cons b rest =>
      have hpb : passB (a :: b :: rest) =
          resolveEdge 0 a :: modifyLast (resolveEdge 1) (b :: rest) := rfl
      rw [hpb, lastStop_cons _ _ (by
          have := length_modifyLast (resolveEdge 1) (b :: rest)
          intro hcon
          rw [hcon] at this
          simp at this),
        lastStop_modifyLast _ _ (by simp), lastStop_cons a (b :: rest) (by simp)]

/-- C7 (amended): for every stop list with at least one stop, every
gradient-line length and every soft-spacing, `ResolveColorStops` returns a
list of the same length in which every position has unit number and the
positions are monotonically non-decreasing; a first stop whose position
was auto resolves to exactly 0; a last stop whose position was auto
resolves to exactly 1 provided the list has at least two stops and no
other stop resolves to a position above 1 (otherwise it is nudged up to
the running maximum of the earlier positions). -/
theorem resolve_color_stops_contract (resolveLength : Rat → Rat) (L ss : Rat)
    (stops : List ColorStop) (hne : ¬stops = []) :
    (ResolveColorStops resolveLength L ss stops).length = stops.length ∧
    (∀ x ∈ ResolveColorStops resolveLength L ss stops, isNum x) ∧
    List.Chain' stopLE (ResolveColorStops resolveLength L ss stops) ∧
    (stops.headI.position.unit = CUnit.auto →
      posOf (ResolveColorStops resolveLength L ss stops).headI = 0) ∧
    (2 ≤ stops.length → (lastStop stops).position.unit = CUnit.auto →
      (∀ x ∈ stops.map (resolveStopUnit resolveLength L), isNum x → posOf x ≤ 1) →
      posOf (lastStop (ResolveColorStops resolveLength L ss stops)) = 1) := by
  have hmne : stops.map (resolveStopUnit resolveLength L) ≠ [] := by
    simpa using hne
  have hBne : passB (stops.map (resolveStopUnit resolveLength L)) ≠ [] :=
    passB_ne_nil _ hmne
  obtain ⟨pcChain, pcNum, pcHead, pcBound, ⟨pcNe, pcLast⟩, pcLen⟩ :=
    passC_spec (passB (stops.map (resolveStopUnit resolveLength L))) hBne
      (passB_lastStop_isNum _ hmne) (passB_headI_isNum _ hmne)
  obtain ⟨pdChain, pdHead, pdLast, pdNum, pdLen⟩ :=
    passD_spec ss (passC (passB (stops.map (resolveStopUnit resolveLength L)))) pcChain
  have hres : ResolveColorStops resolveLength L ss stops =
      passD ss (passC (passB (stops.map (resolveStopUnit resolveLength L)))) := rfl
  rw [hres]
  refine ⟨?_, pdNum pcNum, pdChain, ?_, ?_⟩
  · rw [pdLen, pcLen, length_passB, List.length_map]
  · intro hauto
    rw [pdHead, pcHead]
    refine passB_headI_auto _ hmne ?_
    rw [headI_map _ _ hne]
    have : resolveStopUnit resolveLength L stops.headI = stops.headI :=
      resolveStopUnit_auto _ _ _ hauto
    rw [this]
    simp [isNum, hauto]
  · intro hlen hauto hle1
    have hmlen : 2 ≤ (stops.map (resolveStopUnit resolveLength L)).length := by
      simpa using hlen
    have hlastm : lastStop (stops.map (resolveStopUnit resolveLength L)) =
        lastStop stops := by
      rw [lastStop_map _ _ hne, resolveStopUnit_auto _ _ _ hauto]
    have hlastB : posOf (lastStop (passB (stops.map (resolveStopUnit resolveLength L)))) = 1 := by
      rw [passB_lastStop_two _ hmlen, hlastm]
      simp [resolveEdge, posOf, hauto]
    have hBbound : ∀ x ∈ passB (stops.map (resolveStopUnit resolveLength L)),
        isNum x → posOf x ≤ 1 := by
      intro x hx hn
      rcases passB_bound _ hle1 x hx with h | h
      · exact h
      · exact absurd hn h
    rw [pdLast]
    refine le_antisymm ?_ ?_
    · exact pcBound 1 hBbound _ (lastStop_mem _ pcNe)
    · rw [← hlastB]
      exact pcLast

/-- C7 (counterexample): on the stop list (auto, number 2, auto) with
gradient-line length 1, the last auto stop does not resolve to 1 — it is
defaulted to 1 and then nudged up to 2 by the interior stop — refuting
the claim that a last auto stop resolves to exactly 1. -/
theorem resolve_color_stops_last_counterexample :
    (lastStop (ResolveColorStops id 1 (1 / 10)
        [⟨⟨1, 1, 1, 255⟩, ⟨0, CUnit.auto⟩⟩, ⟨⟨1, 1, 1, 255⟩, ⟨2, CUnit.number⟩⟩,
          ⟨⟨1, 1, 1, 255⟩, ⟨0, CUnit.auto⟩⟩])).position.number = 2 ∧
    ((2 : Rat) = 1 → False) := by
  constructor
  · rfl
  · intro h
    exact absurd h (by norm_num)

/-- Closed witness for `resolve_color_stops_contract`: three stops (auto,
number ½, auto) on a unit gradient line. -/
theorem resolve_color_stops_contract_witness :
    (ResolveColorStops id 1 (1 / 10)
      [⟨⟨1, 1, 1, 255⟩, ⟨0, CUnit.auto⟩⟩, ⟨⟨1, 1, 1, 255⟩, ⟨1 / 2, CUnit.number⟩⟩,
        ⟨⟨1, 1, 1, 255⟩, ⟨0, CUnit.auto⟩⟩]).length = 3 ∧
    posOf (ResolveColorStops id 1 (1 / 10)
      [⟨⟨1, 1, 1, 255⟩, ⟨0, CUnit.auto⟩⟩, ⟨⟨1, 1, 1, 255⟩, ⟨1 / 2, CUnit.number⟩⟩,
        ⟨⟨1, 1, 1, 255⟩, ⟨0, CUnit.auto⟩⟩]).headI = 0 ∧
    posOf (lastStop (ResolveColorStops id 1 (1 / 10)
      [⟨⟨1, 1, 1, 255⟩, ⟨0, CUnit.auto⟩⟩, ⟨⟨1, 1, 1, 255⟩, ⟨1 / 2, CUnit.number⟩⟩,
        ⟨⟨1, 1, 1, 255⟩, ⟨0, CUnit.auto⟩⟩])) = 1 := by
  have h := resolve_color_stops_contract id 1 (1 / 10)
    [⟨⟨1, 1, 1, 255⟩, ⟨0, CUnit.auto⟩⟩, ⟨⟨1, 1, 1, 255⟩, ⟨1 / 2, CUnit.number⟩⟩,
      ⟨⟨1, 1, 1, 255⟩, ⟨0, CUnit.auto⟩⟩] (by decide)
  refine ⟨?_, h.2.2.2.1 rfl, h.2.2.2.2 (by decide) rfl ?_⟩
  · rw [h.1]
    rfl
  · rintro x hx hn
    simp only [List.map_cons, List.map_nil, List.mem_cons, List.not_mem_nil,
      or_false] at hx
    rcases hx with rfl | rfl | rfl <;>
      simp_all [resolveStopUnit, isNum, posOf]
    norm_num

end Gradient

end Rml
